import Mathlib

/-!
# Instance-profile reconciler of the EC2 node class

A shallow embedding of `pkg/controllers/nodeclass/instanceprofile.go`
(`InstanceProfile.Reconcile` and `InstanceProfile.garbageCollectProfiles`).

Modelling conventions

* The Go code mutates the node class through a pointer and returns an error.
  Here every function takes the node class and returns the node class it leaves
  behind together with what it returned.
* The collaborators (instance-profile provider, EC2 API) are arbitrary: each
  answer is a function of the sequence of collaborator calls made so far, so a
  collaborator may answer the same question differently at different times.
  The sequence of calls is threaded through every function as `log`.
* A Go `error` is a `GoError`; `nil` is `none`.
* Reading a slice out of range panics; the embedding keeps that outcome.
-/

namespace nodeclass

/-! ## Errors -/

/-- Go error values: a plain message, or a message that wraps a cause (the
value `fmt.Errorf` builds for a format ending in `%w`). -/
inductive GoError where
  | errorString (msg : String)
  | wrapError (msg : String) (err : GoError)
  deriving DecidableEq, Repr

/-- The method `Error()`. -/
def GoError.Error : GoError → String
  | .errorString msg => msg
  | .wrapError msg _ => msg

/-- The method `Unwrap()`, as `errors.Unwrap` sees it. -/
def GoError.Unwrap : GoError → Option GoError
  | .errorString _ => none
  | .wrapError _ err => some err

/-- The call `fmt.Errorf(format ++ "%w", err)`, where `pre` is the text the
format and its other arguments produce in front of `%w`. -/
def Errorf (pre : String) (err : GoError) : GoError :=
  .wrapError (pre ++ err.Error) err

/-! ## Data model -/

/-- The struct `v1.InstanceProfilesStatus`. Its declaration is in `pkg/apis/v1`;
the fields and their zero values are the ones `Reconcile` initialises. The
Go counter is a fixed-width integer whose increment wraps at its maximum; the
embedding keeps an unbounded integer, so it follows the code for every counter
below that maximum, and no statement below uses the order of the counter. -/
structure InstanceProfilesStatus where
  Current : String
  Previous : List String
  Version : Int
  deriving DecidableEq, Repr

/-- Status of a condition of the node class. -/
inductive ConditionStatus where
  | condUnknown
  | condFalse
  | condTrue
  deriving DecidableEq, Repr

/-- The fields of `EC2NodeClass.Spec` the reconciler reads. -/
structure EC2NodeClassSpec where
  Role : String
  InstanceProfile : Option String
  deriving DecidableEq, Repr

/-- The fields of `EC2NodeClass.Status` the reconciler reads or writes.
`InstanceProfiles` is a pointer; `InstanceProfileReady` is the status of the
condition `ConditionTypeInstanceProfileReady`. -/
structure EC2NodeClassStatus where
  InstanceProfile : String
  InstanceProfiles : Option InstanceProfilesStatus
  InstanceProfileReady : ConditionStatus
  deriving DecidableEq, Repr

/-- The node class, `v1.EC2NodeClass`. -/
structure EC2NodeClass where
  Name : String
  Spec : EC2NodeClassSpec
  Status : EC2NodeClassStatus
  deriving DecidableEq, Repr

/-- A role of an IAM instance profile; `RoleName` is a pointer. -/
structure Role where
  RoleName : Option String
  deriving DecidableEq, Repr

/-- What `Provider.Get` returns: the instance profile with its roles. -/
structure IAMInstanceProfile where
  Roles : List Role
  deriving DecidableEq, Repr

/-- The struct `ec2types.Filter`. -/
structure Filter where
  Name : String
  Values : List String
  deriving DecidableEq, Repr

/-- The struct `ec2.DescribeInstancesInput`. -/
structure DescribeInstancesInput where
  Filters : List Filter
  deriving DecidableEq, Repr

/-- The struct `ec2.DescribeInstancesOutput`; a reservation is kept as its id. -/
structure DescribeInstancesOutput where
  Reservations : List String
  deriving DecidableEq, Repr

/-- One call to a collaborator. -/
inductive Call where
  | Get (name : String)
  | Create (name role : String) (tags : List (String × String))
  | Delete (name : String)
  | DescribeInstances (input : DescribeInstancesInput)
  deriving DecidableEq, Repr

/-- The interface `instanceprofile.Provider`. Every answer may depend on the
calls made before it. -/
structure Provider where
  Get : List Call → String → Except GoError IAMInstanceProfile
  Create : List Call → String → String → List (String × String) → Option GoError
  Delete : List Call → String → Option GoError

/-- The interface `sdk.EC2API`, as far as the reconciler uses it. -/
structure EC2API where
  DescribeInstances : List Call → DescribeInstancesInput → Except GoError DescribeInstancesOutput

/-- The reconciler, `InstanceProfile` (its `provisioner` field is never read). -/
structure InstanceProfile where
  instanceProfileProvider : Provider
  region : String
  ec2api : EC2API

/-- What `options.FromContext(ctx)` yields. -/
structure Context where
  ClusterName : String
  deriving DecidableEq, Repr

/-- The methods `EC2NodeClass.InstanceProfileName` and
`EC2NodeClass.InstanceProfileTags`, declared in `pkg/apis/v1`: pure functions of
the node class, the cluster name and the region, taken as parameters. -/
structure NodeClassMethods where
  InstanceProfileName : EC2NodeClass → String → String → String
  InstanceProfileTags : EC2NodeClass → String → String → List (String × String)

/-- Modelled from the spec: the method `EC2NodeClass.InstanceProfileRole`,
declared in `pkg/apis/v1`. The spec has `ProfileStore.Create` called "with the
new name, the desired role, and derived tags", so the method yields the desired
role. -/
def InstanceProfileRole (nodeClass : EC2NodeClass) : String :=
  nodeClass.Spec.Role

/-- The helper `lo.FromPtr`: the pointed-to value, the zero value for `nil`. -/
def FromPtr (p : Option String) : String :=
  match p with
  | some s => s
  | none => ""

/-- How a Go function call ends. -/
inductive Outcome where
  | returned (err : Option GoError)
  | panicked
  deriving DecidableEq, Repr

/-- A run of a method on the node class: the node class it leaves, the calls
made so far, and how it ended. -/
structure Exec where
  nodeClass : EC2NodeClass
  log : List Call
  outcome : Outcome

/-- A run of the collection loop on the status the pointer refers to. -/
structure GCExec where
  status : InstanceProfilesStatus
  log : List Call
  outcome : Outcome

/-! ## `garbageCollectProfiles` -/

/-- The input of the inventory query for `oldProfile` (lines 112-119). -/
def describeInput (oldProfile : String) : DescribeInstancesInput :=
  { Filters := [{ Name := "iam-instance-profile.arn", Values := ["*/" ++ oldProfile] }] }

/-- The loop of `garbageCollectProfiles` (lines 108-135). The counter is
`i + 1` for the Go index `i`; counter `0` is `i = -1`, where the loop exits
and the function returns `nil`. -/
def gcLoop (ip : InstanceProfile) : Nat → InstanceProfilesStatus → List Call → GCExec
  | 0, st, log => ⟨st, log, .returned none⟩
  | i + 1, st, log =>
    match st.Previous[i]? with
    | none => ⟨st, log, .panicked⟩
    | some oldProfile =>
      match ip.ec2api.DescribeInstances log (describeInput oldProfile) with
      | .error err =>
        ⟨st, log ++ [.DescribeInstances (describeInput oldProfile)],
          .returned (some (Errorf ("checking instances using profile " ++ oldProfile ++ ": ") err))⟩
      | .ok instances =>
        if instances.Reservations.length = 0 then
          match ip.instanceProfileProvider.Delete
              (log ++ [.DescribeInstances (describeInput oldProfile)]) oldProfile with
          | some err =>
            ⟨st, log ++ [.DescribeInstances (describeInput oldProfile), .Delete oldProfile],
              .returned (some (Errorf ("deleting instance profile " ++ oldProfile ++ ": ") err))⟩
          | none =>
            gcLoop ip i
              { st with Previous := st.Previous.take i ++ st.Previous.drop (i + 1) }
              (log ++ [.DescribeInstances (describeInput oldProfile), .Delete oldProfile])
        else
          gcLoop ip i st (log ++ [.DescribeInstances (describeInput oldProfile)])

/-- The method `garbageCollectProfiles` (lines 100-138). -/
def garbageCollectProfiles (ip : InstanceProfile) (nodeClass : EC2NodeClass)
    (log : List Call) : Exec :=
  match nodeClass.Status.InstanceProfiles with
  | none => ⟨nodeClass, log, .returned none⟩
  | some st =>
    if st.Previous.length = 0 then
      ⟨nodeClass, log, .returned none⟩
    else
      let r := gcLoop ip st.Previous.length st log
      ⟨{ nodeClass with Status := { nodeClass.Status with InstanceProfiles := some r.status } },
        r.log, r.outcome⟩

/-! ## `Reconcile` -/

/-- Lines 53-59: the status is initialised when the pointer is `nil`. -/
def initStatus (nodeClass : EC2NodeClass) : InstanceProfilesStatus :=
  match nodeClass.Status.InstanceProfiles with
  | none => { Current := "", Previous := [], Version := 0 }
  | some st => st

/-- Lines 60-67: the role bound to the current profile, `""` when there is no
current profile, when `Get` fails, or when the profile has no role; and the log
after the probe. -/
def probeRole (ip : InstanceProfile) (st : InstanceProfilesStatus) (log : List Call) :
    String × List Call :=
  if st.Current ≠ "" then
    match ip.instanceProfileProvider.Get log st.Current with
    | .ok profile =>
      (match profile.Roles with
        | r :: _ => FromPtr r.RoleName
        | [] => "",
       log ++ [.Get st.Current])
    | .error _ => ("", log ++ [.Get st.Current])
  else
    ("", log)

/-- Lines 88-97 on the managed path: the collection pass, then the readiness
condition and `nil` when the pass returned `nil`. -/
def collectAndFinish (ip : InstanceProfile) (nodeClass : EC2NodeClass) (log : List Call) :
    Exec :=
  let r := garbageCollectProfiles ip nodeClass log
  match r.outcome with
  | .panicked => r
  | .returned (some err) =>
    ⟨r.nodeClass, r.log, .returned (some (Errorf "garbage collecting instance profiles: " err))⟩
  | .returned none =>
    ⟨{ r.nodeClass with Status := { r.nodeClass.Status with InstanceProfileReady := .condTrue } },
      r.log, .returned none⟩

/-- The method `Reconcile` (lines 50-98). The `reconcile.Result` it returns is
always the zero value and is left out. -/
def Reconcile (m : NodeClassMethods) (ip : InstanceProfile) (ctx : Context)
    (nodeClass : EC2NodeClass) (log : List Call) : Exec :=
  if nodeClass.Spec.Role ≠ "" then
    let st := initStatus nodeClass
    let probe := probeRole ip st log
    if probe.1 ≠ nodeClass.Spec.Role then
      let st1 := { st with Version := st.Version + 1 }
      let nc1 : EC2NodeClass :=
        { nodeClass with Status := { nodeClass.Status with InstanceProfiles := some st1 } }
      let profileName := m.InstanceProfileName nc1 ctx.ClusterName ip.region
      let role := InstanceProfileRole nc1
      let tags := m.InstanceProfileTags nc1 ctx.ClusterName ip.region
      match ip.instanceProfileProvider.Create probe.2 profileName role tags with
      | some err =>
        ⟨nc1, probe.2 ++ [.Create profileName role tags],
          .returned (some (Errorf "creating instance profile, " err))⟩
      | none =>
        let st2 : InstanceProfilesStatus :=
          { Current := profileName,
            Previous := if st1.Current ≠ "" then st1.Previous ++ [st1.Current] else st1.Previous,
            Version := st1.Version }
        let nc2 : EC2NodeClass :=
          { nc1 with Status := { nc1.Status with InstanceProfile := profileName,
                                                  InstanceProfiles := some st2 } }
        collectAndFinish ip nc2 (probe.2 ++ [.Create profileName role tags])
    else
      let nc0 : EC2NodeClass :=
        { nodeClass with Status := { nodeClass.Status with InstanceProfiles := some st } }
      collectAndFinish ip nc0 probe.2
  else
    ⟨{ nodeClass with Status := { nodeClass.Status with
          InstanceProfile := FromPtr nodeClass.Spec.InstanceProfile,
          InstanceProfileReady := .condTrue } },
      log, .returned none⟩

/-! ## Vocabulary of the statements -/

/-- A call made by the collection pass over entries among `prev`: an inventory
query, or a delete of one of the entries. -/
def IsGCCall (prev : List String) (c : Call) : Prop :=
  (∃ p, c = .DescribeInstances (describeInput p)) ∨ (∃ p, c = .Delete p ∧ p ∈ prev)

/-- An entry of `Previous` with a verdict: `true` when the inventory still
reports an instance on it (the entry stays), `false` when it reports none (the
entry is deleted and removed). -/
abbrev Marked := String × Bool

/-- The calls of the visit of one entry: the inventory query, and the delete
when the entry is not referenced. -/
def visitCalls (e : Marked) : List Call :=
  if e.2 then [.DescribeInstances (describeInput e.1)]
  else [.DescribeInstances (describeInput e.1), .Delete e.1]

/-- The calls of a pass without failure over the entries `es` (oldest first, as
in `Previous`): the newest entry is visited first, the head of `es` last. -/
def passCalls : List Marked → List Call
  | [] => []
  | e :: es => passCalls es ++ visitCalls e

/-- The entries that stay, oldest first. -/
def kept (es : List Marked) : List String :=
  (es.filter (fun e => e.2)).map Prod.fst

/-- The entries that are removed, oldest first. -/
def removed (es : List Marked) : List String :=
  (es.filter (fun e => !e.2)).map Prod.fst

/-- The names of the delete calls in a log, in call order. -/
def deletedNames : List Call → List String
  | [] => []
  | .Delete p :: cs => p :: deletedNames cs
  | _ :: cs => deletedNames cs

/-- The collaborators answer the visit of entry `e`, made when the calls so far
are `log`, without failure and as the verdict says: the inventory query
succeeds, the verdict is `true` exactly when it returns a reservation, and for
verdict `false` the delete that follows succeeds. -/
def VisitOk (ip : InstanceProfile) (log : List Call) (e : Marked) : Prop :=
  ∃ out, ip.ec2api.DescribeInstances log (describeInput e.1) = .ok out ∧
    (e.2 = true ↔ out.Reservations.length ≠ 0) ∧
    (e.2 = false →
      ip.instanceProfileProvider.Delete (log ++ [.DescribeInstances (describeInput e.1)]) e.1
        = none)

/-- The collaborators answer a whole pass over `es`, started when the calls so
far are `log`, without failure and as the verdicts say: first the newer entries
`es`, then the oldest entry `e` at the log those visits leave. -/
def PassOk (ip : InstanceProfile) (log : List Call) : List Marked → Prop
  | [] => True
  | e :: es => PassOk ip log es ∧ VisitOk ip (log ++ passCalls es) e

/-- The node class with its profile state replaced. -/
def withProfiles (nodeClass : EC2NodeClass) (st : InstanceProfilesStatus) : EC2NodeClass :=
  { nodeClass with Status := { nodeClass.Status with InstanceProfiles := some st } }

/-! ## Concrete collaborators -/

/-- Naming and tagging methods that yield the name `name` and no tags. -/
def constMethods (name : String) : NodeClassMethods :=
  ⟨fun _ _ _ => name, fun _ _ _ => []⟩

/-- A reconciler whose collaborators give the same answers at every call. -/
def constReconciler (get : Except GoError IAMInstanceProfile) (create delete : Option GoError)
    (describe : Except GoError DescribeInstancesOutput) : InstanceProfile :=
  { instanceProfileProvider := ⟨fun _ _ => get, fun _ _ _ _ => create, fun _ _ => delete⟩,
    region := "us-west-2",
    ec2api := ⟨fun _ _ => describe⟩ }

/-- A node class named `default` with desired role `role` and profile state `st`. -/
def ncOf (role : String) (st : Option InstanceProfilesStatus) : EC2NodeClass :=
  { Name := "default", Spec := ⟨role, none⟩, Status := ⟨"", st, .condUnknown⟩ }

/-- The profile `Get` returns for a profile bound to `role`. -/
def boundTo (role : String) : Except GoError IAMInstanceProfile :=
  .ok ⟨[⟨some role⟩]⟩

/-- A reconciler whose provider gives the same answers at every call and whose
inventory answers by the input of the query alone. -/
def inventoryReconciler (get : Except GoError IAMInstanceProfile) (create delete : Option GoError)
    (describe : DescribeInstancesInput → Except GoError DescribeInstancesOutput) :
    InstanceProfile :=
  { instanceProfileProvider := ⟨fun _ _ => get, fun _ _ _ _ => create, fun _ _ => delete⟩,
    region := "us-west-2",
    ec2api := ⟨fun _ input => describe input⟩ }

/-- Scenario C: no instance is bound to any profile, every call succeeds. -/
def scenarioC : InstanceProfile :=
  constReconciler (boundTo "role-B") none none (.ok ⟨[]⟩)

/-- An inventory that fails on `P1` and reports no instance on any other profile. -/
def inventoryFailsOnP1 : InstanceProfile :=
  inventoryReconciler (boundTo "role-B") none none
    (fun input => if input = describeInput "P1" then .error (.errorString "timeout") else .ok ⟨[]⟩)

/-- An inventory that reports an instance on `P2` and none on any other profile,
with a provider whose delete fails. -/
def deleteFails : InstanceProfile :=
  inventoryReconciler (boundTo "role-B") none (some (.errorString "denied"))
    (fun input => if input = describeInput "P2" then .ok ⟨["r-1"]⟩ else .ok ⟨[]⟩)

/-- The calls of the drift probe (lines 61-67): one `Get`, made when there is a
current profile. -/
def probeCalls (st : InstanceProfilesStatus) : List Call :=
  if st.Current ≠ "" then [.Get st.Current] else []

/-- The name the naming function returns in a rotation from profile state `st`:
it is called on the node class whose counter is already incremented (lines
70-71). -/
def rotationName (m : NodeClassMethods) (ip : InstanceProfile) (ctx : Context)
    (nodeClass : EC2NodeClass) (st : InstanceProfilesStatus) : String :=
  m.InstanceProfileName (withProfiles nodeClass { st with Version := st.Version + 1 })
    ctx.ClusterName ip.region

/-- The create call of a rotation from profile state `st` (lines 72-77). -/
def createCall (m : NodeClassMethods) (ip : InstanceProfile) (ctx : Context)
    (nodeClass : EC2NodeClass) (st : InstanceProfilesStatus) : Call :=
  .Create (rotationName m ip ctx nodeClass st) nodeClass.Spec.Role
    (m.InstanceProfileTags (withProfiles nodeClass { st with Version := st.Version + 1 })
      ctx.ClusterName ip.region)

/-- The node class after the rotation step from profile state `st` to the new
profile `name` (lines 70-85), before the collection pass. -/
def rotated (nodeClass : EC2NodeClass) (st : InstanceProfilesStatus) (name : String) :
    EC2NodeClass :=
  { nodeClass with Status := { nodeClass.Status with
      InstanceProfile := name,
      InstanceProfiles := some
        { Current := name,
          Previous := if st.Current ≠ "" then st.Previous ++ [st.Current] else st.Previous,
          Version := st.Version + 1 } } }

/-- Collaborators whose calls all succeed, with the current profile bound to
`role` and no instance on any profile. -/
def quiet (role : String) : InstanceProfile :=
  constReconciler (boundTo role) none none (.ok ⟨[]⟩)

/-- Collaborators whose calls all succeed, with the current profile bound to
`role` and an instance on every profile. -/
def busy (role : String) : InstanceProfile :=
  constReconciler (boundTo role) none none (.ok ⟨["r-1"]⟩)

/-- Collaborators whose create fails, with the current profile bound to `role`. -/
def createFails (role : String) : InstanceProfile :=
  constReconciler (boundTo role) (some (.errorString "quota")) none (.ok ⟨[]⟩)

/-- The context of the examples. -/
def exampleCtx : Context := ⟨"cluster"⟩

/-- The reconciler with the answers of `Get` replaced by `get`; the other
collaborators are unchanged. -/
def withGet (ip : InstanceProfile) (get : List Call → String → Except GoError IAMInstanceProfile) :
    InstanceProfile :=
  { ip with instanceProfileProvider := { ip.instanceProfileProvider with Get := get } }

/-- Collaborators whose `Get` fails; every other call succeeds and the inventory
reports an instance on every profile. -/
def probeFails : InstanceProfile :=
  constReconciler (.error (.errorString "throttled")) none none (.ok ⟨["r-1"]⟩)

/-- Collaborators whose `Get` fails; every other call succeeds and the inventory
reports no instance on any profile. -/
def probeFailsQuiet : InstanceProfile :=
  constReconciler (.error (.errorString "throttled")) none none (.ok ⟨[]⟩)

/-- The counter of the profile state of a node class, if it has one. -/
def versionOf (nodeClass : EC2NodeClass) : Option Int :=
  nodeClass.Status.InstanceProfiles.map (fun st => st.Version)

/-- The pass stops at the visit of entry `x`, made when the calls so far are
`log`, with the calls `stop` and the error `err`: either the inventory query
fails, or it returns zero reservations and the delete fails. -/
def Stopped (ip : InstanceProfile) (log : List Call) (x : String) (stop : List Call)
    (err : GoError) : Prop :=
  (∃ e, ip.ec2api.DescribeInstances log (describeInput x) = .error e ∧
      stop = [.DescribeInstances (describeInput x)] ∧
      err = Errorf ("checking instances using profile " ++ x ++ ": ") e) ∨
  (∃ out e, ip.ec2api.DescribeInstances log (describeInput x) = .ok out ∧
      out.Reservations.length = 0 ∧
      ip.instanceProfileProvider.Delete (log ++ [.DescribeInstances (describeInput x)]) x
        = some e ∧
      stop = [.DescribeInstances (describeInput x), .Delete x] ∧
      err = Errorf ("deleting instance profile " ++ x ++ ": ") e)

/-- Scenario D: a node class with no desired role and the externally supplied
profile reference `P-ext`, with no profile state. -/
def ncExternal : EC2NodeClass :=
  { Name := "default", Spec := ⟨"", some "P-ext"⟩, Status := ⟨"", none, .condUnknown⟩ }

/-- The error and the errors reachable from it by `Unwrap`, outermost first. -/
def unwrapChain : GoError → List GoError
  | .errorString msg => [.errorString msg]
  | .wrapError msg err => .wrapError msg err :: unwrapChain err

/-- The text `part` occurs in the message `msg`. -/
def Mentions (msg part : String) : Prop :=
  part.data <:+: msg.data

instance (msg part : String) : Decidable (Mentions msg part) := by
  unfold Mentions
  infer_instance

/-- The accumulator of the abort-on-error fold: the retained entries (oldest
first), the calls made so far, and the first error. -/
structure FoldAcc where
  retained : List String
  log : List Call
  err : Option GoError

/-- One step of the abort-on-error fold, on the entry `p` with the newer entries
already folded into `acc`: once an error occurred the entry is retained and
nothing is asked; otherwise the entry is retained when its query returns a
reservation, dropped when its query returns none and its delete succeeds, and
retained with the error recorded when the query or the delete fails. -/
def foldStep (ip : InstanceProfile) (p : String) (acc : FoldAcc) : FoldAcc :=
  match acc.err with
  | some _ => { acc with retained := p :: acc.retained }
  | none =>
    match ip.ec2api.DescribeInstances acc.log (describeInput p) with
    | .error e =>
      ⟨p :: acc.retained, acc.log ++ [.DescribeInstances (describeInput p)],
        some (Errorf ("checking instances using profile " ++ p ++ ": ") e)⟩
    | .ok out =>
      if out.Reservations.length = 0 then
        match ip.instanceProfileProvider.Delete
            (acc.log ++ [.DescribeInstances (describeInput p)]) p with
        | some e =>
          ⟨p :: acc.retained, acc.log ++ [.DescribeInstances (describeInput p), .Delete p],
            some (Errorf ("deleting instance profile " ++ p ++ ": ") e)⟩
        | none =>
          ⟨acc.retained, acc.log ++ [.DescribeInstances (describeInput p), .Delete p], none⟩
      else
        ⟨p :: acc.retained, acc.log ++ [.DescribeInstances (describeInput p)], none⟩

/-- The abort-on-error fold of the design notes: a right-to-left fold over
`previous` that builds a fresh retained list. -/
def abortOnErrorFold (ip : InstanceProfile) (previous : List String) (log : List Call) :
    FoldAcc :=
  previous.foldr (foldStep ip) ⟨[], log, none⟩

/-- The verdict of an inventory that answers by the input of the query alone:
the profile is referenced unless the query returns zero reservations. -/
def referenced (inv : DescribeInstancesInput → Except GoError DescribeInstancesOutput)
    (p : String) : Bool :=
  match inv (describeInput p) with
  | .ok out => decide (out.Reservations.length ≠ 0)
  | .error _ => true

/-- An inventory that reports an instance on `P2` and none on any other profile;
every call succeeds. -/
def onlyP2Busy : InstanceProfile :=
  inventoryReconciler (boundTo "role-B") none none
    (fun input => if input = describeInput "P2" then .ok ⟨["r-1"]⟩ else .ok ⟨[]⟩)

/-- The inputs of the inventory queries in a log, in call order. -/
def queriedInputs : List Call → List DescribeInstancesInput
  | [] => []
  | .DescribeInstances input :: cs => input :: queriedInputs cs
  | _ :: cs => queriedInputs cs

/-! ## Lemmas on the collection loop -/

theorem IsGCCall.mono {prev prev' : List String} {c : Call} (h : IsGCCall prev c)
    (hsub : prev ⊆ prev') : IsGCCall prev' c := by
  rcases h with h | ⟨p, hp, hmem⟩
  · exact Or.inl h
  · exact Or.inr ⟨p, hp, hsub hmem⟩

theorem take_append_drop_succ_sublist (l : List String) (i : Nat) :
    (l.take i ++ l.drop (i + 1)).Sublist l := by
  rw [← List.eraseIdx_eq_take_drop_succ]
  exact List.eraseIdx_sublist l i

theorem status_eta (st : InstanceProfilesStatus) (l : List String) (h : st.Previous = l) :
    { st with Previous := l } = st := by
  cases st
  simp_all

theorem take_drop_succ_append (A C : List String) (i : Nat) (hi : i < A.length) :
    (A ++ C).take i ++ (A ++ C).drop (i + 1) = (A.take i ++ A.drop (i + 1)) ++ C := by
  rw [List.take_append_of_le_length (by omega), List.drop_append_of_le_length (by omega),
    List.append_assoc]

/-- The loop started at or below the end of the part `A` of `Previous` never
panics, touches neither `Current` nor `Version` nor the part `C` behind `A`,
only removes entries of `A`, only adds inventory queries and deletes of entries
of `A` to the log, and removes nothing when it makes no delete call. -/
theorem gcLoop_frame (ip : InstanceProfile) (k : Nat) :
    ∀ (st : InstanceProfilesStatus) (log : List Call) (A C : List String),
      st.Previous = A ++ C → k ≤ A.length →
      ∃ X calls, (gcLoop ip k st log).status = { st with Previous := X ++ C } ∧
        (gcLoop ip k st log).log = log ++ calls ∧
        (gcLoop ip k st log).outcome ≠ .panicked ∧
        X.Sublist A ∧ (∀ c ∈ calls, IsGCCall A c) ∧
        ((∀ p, Call.Delete p ∉ calls) → X = A) := by
  induction k with
  | zero =>
    intro st log A C hprev _
    refine ⟨A, [], ?_, by simp [gcLoop], by simp [gcLoop], List.Sublist.refl _, by simp,
      fun _ => rfl⟩
    simp only [gcLoop]
    exact (status_eta st _ hprev).symm
  | succ i ih =>
    intro st log A C hprev hk
    have hi : i < A.length := by omega
    have hget : st.Previous[i]? = some A[i] := by
      rw [hprev, List.getElem?_append_left hi]
      exact List.getElem?_eq_getElem hi
    have hmem : A[i] ∈ A := List.getElem_mem hi
    have hst : ({ st with Previous := A ++ C } : InstanceProfilesStatus) = st :=
      status_eta st _ hprev
    rw [gcLoop]
    simp only [hget]
    cases hq : ip.ec2api.DescribeInstances log (describeInput A[i]) with
    | error err =>
      refine ⟨A, [.DescribeInstances (describeInput A[i])], hst.symm, rfl, by simp,
        List.Sublist.refl _, ?_, fun _ => rfl⟩
      intro c hc
      simp only [List.mem_singleton] at hc
      exact Or.inl ⟨A[i], hc⟩
    | ok instances =>
      simp only []
      by_cases hz : instances.Reservations.length = 0
      · rw [if_pos hz]
        cases hd : ip.instanceProfileProvider.Delete
            (log ++ [.DescribeInstances (describeInput A[i])]) A[i] with
        | some err =>
          refine ⟨A, [.DescribeInstances (describeInput A[i]), .Delete A[i]], hst.symm, rfl,
            by simp, List.Sublist.refl _, ?_, fun _ => rfl⟩
          intro c hc
          simp only [List.mem_cons, List.mem_singleton, List.not_mem_nil, or_false] at hc
          rcases hc with hc | hc
          · exact Or.inl ⟨A[i], hc⟩
          · exact Or.inr ⟨A[i], hc, hmem⟩
        | none =>
          simp only []
          have hsub := take_append_drop_succ_sublist A i
          have hlen : i ≤ (A.take i ++ A.drop (i + 1)).length := by
            rw [List.length_append, List.length_take, List.length_drop]; omega
          obtain ⟨X, calls, h1, h2, h3, h4, h5, _⟩ := ih
            { st with Previous := st.Previous.take i ++ st.Previous.drop (i + 1) }
            (log ++ [.DescribeInstances (describeInput A[i]), .Delete A[i]])
            (A.take i ++ A.drop (i + 1)) C
            (by simp only [hprev]; exact take_drop_succ_append A C i hi) hlen
          refine ⟨X, [.DescribeInstances (describeInput A[i]), .Delete A[i]] ++ calls,
            h1, by rw [h2, List.append_assoc], h3, h4.trans hsub, ?_, ?_⟩
          · intro c hc
            rw [List.mem_append] at hc
            rcases hc with hc | hc
            · simp only [List.mem_cons, List.mem_singleton, List.not_mem_nil, or_false] at hc
              rcases hc with hc | hc
              · exact Or.inl ⟨A[i], hc⟩
              · exact Or.inr ⟨A[i], hc, hmem⟩
            · exact (h5 c hc).mono hsub.subset
          · intro hno
            exact absurd (by simp) (hno A[i])
      · rw [if_neg hz]
        obtain ⟨X, calls, h1, h2, h3, h4, h5, h6⟩ := ih st
          (log ++ [.DescribeInstances (describeInput A[i])]) A C hprev (by omega)
        refine ⟨X, [.DescribeInstances (describeInput A[i])] ++ calls, h1,
          by rw [h2, List.append_assoc], h3, h4, ?_, ?_⟩
        · intro c hc
          rw [List.mem_append] at hc
          rcases hc with hc | hc
          · simp only [List.mem_singleton] at hc
            exact Or.inl ⟨A[i], hc⟩
          · exact h5 c hc
        · intro hno
          exact h6 (fun p hp => hno p (List.mem_append_right _ hp))

theorem kept_cons (e : Marked) (es : List Marked) :
    kept (e :: es) = (if e.2 then [e.1] else []) ++ kept es := by
  unfold kept
  cases h : e.2 <;> simp [List.filter, h]

/-- One iteration of the loop at index `A.length`, whose entry is `x`, when the
collaborators answer the visit without failure. -/
theorem gcLoop_visit (ip : InstanceProfile) (st : InstanceProfilesStatus) (A C : List String)
    (log : List Call) (e : Marked) (hprev : st.Previous = A ++ e.1 :: C)
    (hv : VisitOk ip log e) :
    gcLoop ip (A.length + 1) st log =
      gcLoop ip A.length { st with Previous := A ++ ((if e.2 then [e.1] else []) ++ C) }
        (log ++ visitCalls e) := by
  obtain ⟨out, hq, hmark, hdel⟩ := hv
  have hget : st.Previous[A.length]? = some e.1 := by
    rw [hprev, List.getElem?_append_right (Nat.le_refl _)]; simp
  rw [gcLoop]
  simp only [hget, hq]
  by_cases hz : out.Reservations.length = 0
  · have he : e.2 = false := by
      cases h : e.2
      · rfl
      · exact absurd hz (hmark.mp h)
    rw [if_pos hz, hdel he]
    simp only [visitCalls, he, hprev]
    simp
  · have he : e.2 = true := hmark.mpr hz
    rw [if_neg hz]
    simp only [visitCalls, he, if_true]
    rw [status_eta st _ (by simpa using hprev)]

/-- A pass whose visits of the entries `es` are all answered without failure
leaves the loop at the index below them, with the entries of verdict `true`
kept in place. -/
theorem gcLoop_of_passOk (ip : InstanceProfile) :
    ∀ (es : List Marked) (A C : List String) (st : InstanceProfilesStatus) (log : List Call),
      st.Previous = A ++ (es.map Prod.fst ++ C) → PassOk ip log es →
      gcLoop ip (A.length + es.length) st log =
        gcLoop ip A.length { st with Previous := A ++ (kept es ++ C) } (log ++ passCalls es) := by
  intro es
  induction es with
  | nil =>
    intro A C st log hprev _
    simp only [List.length_nil, Nat.add_zero, passCalls, List.append_nil, kept, List.filter_nil,
      List.map_nil, List.nil_append]
    rw [status_eta st _ (by simpa using hprev)]
  | cons e es ih =>
    intro A C st log hprev hok
    obtain ⟨hes, hv⟩ := hok
    have hprev' : st.Previous = (A ++ [e.1]) ++ (es.map Prod.fst ++ C) := by
      rw [hprev]; simp
    have h1 := ih (A ++ [e.1]) C st log hprev' hes
    have hlen : A.length + (e :: es).length = (A ++ [e.1]).length + es.length := by
      simp; omega
    rw [hlen, h1]
    have hlen2 : (A ++ [e.1]).length = A.length + 1 := by simp
    rw [hlen2]
    rw [gcLoop_visit ip _ A (kept es ++ C) (log ++ passCalls es) e (by simp) hv]
    simp only [passCalls, kept_cons, List.append_assoc]


/-- An iteration whose inventory query fails returns the wrapped error and
leaves the status as it is. -/
theorem gcLoop_query_fails (ip : InstanceProfile) (st : InstanceProfilesStatus) (i : Nat)
    (x : String) (log : List Call) (err : GoError) (hget : st.Previous[i]? = some x)
    (hq : ip.ec2api.DescribeInstances log (describeInput x) = .error err) :
    gcLoop ip (i + 1) st log =
      ⟨st, log ++ [.DescribeInstances (describeInput x)],
        .returned (some (Errorf ("checking instances using profile " ++ x ++ ": ") err))⟩ := by
  rw [gcLoop]
  simp only [hget, hq]

/-- An iteration whose delete fails returns the wrapped error and leaves the
status as it is. -/
theorem gcLoop_delete_fails (ip : InstanceProfile) (st : InstanceProfilesStatus) (i : Nat)
    (x : String) (log : List Call) (out : DescribeInstancesOutput) (err : GoError)
    (hget : st.Previous[i]? = some x)
    (hq : ip.ec2api.DescribeInstances log (describeInput x) = .ok out)
    (hz : out.Reservations.length = 0)
    (hd : ip.instanceProfileProvider.Delete (log ++ [.DescribeInstances (describeInput x)]) x
      = some err) :
    gcLoop ip (i + 1) st log =
      ⟨st, log ++ [.DescribeInstances (describeInput x), .Delete x],
        .returned (some (Errorf ("deleting instance profile " ++ x ++ ": ") err))⟩ := by
  rw [gcLoop]
  simp only [hget, hq, hz, if_true, hd]

/-- The collection pass on a node class with profile state `st` and a non-empty
history is the loop started at the last index. -/
theorem garbageCollectProfiles_eq_loop (ip : InstanceProfile) (nodeClass : EC2NodeClass)
    (st : InstanceProfilesStatus) (log : List Call)
    (hst : nodeClass.Status.InstanceProfiles = some st) (hne : st.Previous.length ≠ 0) :
    garbageCollectProfiles ip nodeClass log =
      ⟨withProfiles nodeClass (gcLoop ip st.Previous.length st log).status,
        (gcLoop ip st.Previous.length st log).log,
        (gcLoop ip st.Previous.length st log).outcome⟩ := by
  unfold garbageCollectProfiles
  simp only [hst, if_neg hne, withProfiles]

theorem withProfiles_self (nodeClass : EC2NodeClass) (st : InstanceProfilesStatus)
    (hst : nodeClass.Status.InstanceProfiles = some st) : withProfiles nodeClass st = nodeClass := by
  obtain ⟨n, sp, ⟨a, b, c⟩⟩ := nodeClass
  simp only [withProfiles] at *
  simp_all

/-- The loop stopped below index `i` by a failure after the newer entries `es`
were visited without failure. -/
theorem gcLoop_stops_at (ip : InstanceProfile) (st : InstanceProfilesStatus) (log : List Call)
    (i : Nat) (hi : i < st.Previous.length) (es : List Marked)
    (hes : es.map Prod.fst = st.Previous.drop (i + 1)) (hok : PassOk ip log es) :
    gcLoop ip st.Previous.length st log =
      gcLoop ip (i + 1) { st with Previous := st.Previous.take (i + 1) ++ kept es }
        (log ++ passCalls es) := by
  have hlenes : es.length = st.Previous.length - (i + 1) := by
    have := congrArg List.length hes
    simpa using this
  have hprev : st.Previous = st.Previous.take (i + 1) ++ (es.map Prod.fst ++ []) := by
    rw [hes, List.append_nil, List.take_append_drop]
  have h := gcLoop_of_passOk ip es (st.Previous.take (i + 1)) [] st log hprev hok
  have hlen : (st.Previous.take (i + 1)).length = i + 1 := by
    rw [List.length_take]; omega
  rw [hlen, List.append_nil] at h
  rw [← h]
  congr 1
  omega

theorem getElem?_take_succ_append (l r : List String) (i : Nat) (hi : i < l.length) :
    (l.take (i + 1) ++ r)[i]? = some l[i] := by
  rw [List.getElem?_append_left (by rw [List.length_take]; omega)]
  rw [List.getElem?_take_of_lt (by omega)]
  exact List.getElem?_eq_getElem hi

/-! ## Garbage collection: success, inventory failure, delete failure -/

theorem deletedNames_append (a b : List Call) :
    deletedNames (a ++ b) = deletedNames a ++ deletedNames b := by
  induction a with
  | nil => rfl
  | cons c cs ih => cases c <;> simp [deletedNames, ih]

theorem deletedNames_passCalls (es : List Marked) :
    deletedNames (passCalls es) = (removed es).reverse := by
  induction es with
  | nil => rfl
  | cons e es ih =>
    obtain ⟨p, b⟩ := e
    cases b <;>
      simp [passCalls, deletedNames_append, ih, visitCalls, deletedNames, removed, List.filter]

/-- C8: garbage collection is a filter on success. For every node class whose
profile state has the entries of `es` as `Previous`, if the collaborators answer
every visit of the pass without failure (`PassOk`: each inventory query
succeeds, the verdict of an entry is `false` exactly when its query returned
zero reservations, and the delete of each such entry succeeds), then
`garbageCollectProfiles` returns `nil`, the resulting `Previous` is the entries
of verdict `true` in the original order, nothing else of the node class
changes, the calls made are those of the visits newest first, and the delete
calls are exactly the removed entries. -/
theorem garbageCollectProfiles_filter_on_success (ip : InstanceProfile)
    (nodeClass : EC2NodeClass) (st : InstanceProfilesStatus) (log : List Call)
    (es : List Marked)
    (hst : nodeClass.Status.InstanceProfiles = some st)
    (hes : es.map Prod.fst = st.Previous)
    (hok : PassOk ip log es) :
    garbageCollectProfiles ip nodeClass log =
        ⟨withProfiles nodeClass { st with Previous := kept es }, log ++ passCalls es,
          .returned none⟩ ∧
      deletedNames (passCalls es) = (removed es).reverse := by
  refine ⟨?_, deletedNames_passCalls es⟩
  by_cases hne : st.Previous.length = 0
  · have hnil : es = [] := by
      have := congrArg List.length hes
      rw [hne, List.length_map] at this
      exact List.length_eq_zero.mp this
    subst hnil
    have hprev : st.Previous = [] := List.length_eq_zero.mp hne
    unfold garbageCollectProfiles
    simp only [hst, hne, if_true, passCalls, List.append_nil, kept, List.filter_nil, List.map_nil]
    rw [status_eta st _ hprev, withProfiles_self nodeClass st hst]
  · rw [garbageCollectProfiles_eq_loop ip nodeClass st log hst hne]
    have hprev : st.Previous = [] ++ (es.map Prod.fst ++ []) := by simp [hes]
    have h := gcLoop_of_passOk ip es [] [] st log hprev hok
    have hlen : st.Previous.length = ([] : List String).length + es.length := by
      rw [← hes]; simp
    rw [hlen, h]
    simp [gcLoop]

/-- C8, Scenario C: `Previous = [P1]`, no instance on `P1`: `P1` is deleted and
`Previous` becomes empty. -/
theorem garbageCollectProfiles_filter_on_success_witness :
    PassOk scenarioC [] [("P1", false)] ∧
      (garbageCollectProfiles scenarioC (ncOf "role-B" (some ⟨"P2", ["P1"], 2⟩)) []).nodeClass
          = ncOf "role-B" (some ⟨"P2", [], 2⟩) ∧
      (garbageCollectProfiles scenarioC (ncOf "role-B" (some ⟨"P2", ["P1"], 2⟩)) []).log
          = [.DescribeInstances (describeInput "P1"), .Delete "P1"] ∧
      (garbageCollectProfiles scenarioC (ncOf "role-B" (some ⟨"P2", ["P1"], 2⟩)) []).outcome
          = .returned none :=
  have hok : PassOk scenarioC [] [("P1", false)] :=
    ⟨trivial, ⟨[]⟩, rfl, by decide, fun _ => rfl⟩
  have h := (garbageCollectProfiles_filter_on_success scenarioC
    (ncOf "role-B" (some ⟨"P2", ["P1"], 2⟩)) ⟨"P2", ["P1"], 2⟩ [] [("P1", false)] rfl rfl hok).1
  ⟨hok, by rw [h]; rfl, by rw [h]; rfl, by rw [h]⟩

/-- C9: partial progress on inventory failure. For every node class with
profile state `st` and every index `i` of `Previous`, if the entries newer than
`i` are visited without failure with verdicts `es` and the inventory query for
the entry at index `i` then fails with `err`, then `garbageCollectProfiles`
returns the error wrapped with the profile name, the entries at indices `0..i`
are still in `Previous` in the same order, followed by exactly the newer
entries whose query returned a reservation, and the failing query is the last
call. -/
theorem garbageCollectProfiles_inventory_failure (ip : InstanceProfile)
    (nodeClass : EC2NodeClass) (st : InstanceProfilesStatus) (log : List Call)
    (i : Nat) (hi : i < st.Previous.length) (es : List Marked) (err : GoError)
    (hst : nodeClass.Status.InstanceProfiles = some st)
    (hes : es.map Prod.fst = st.Previous.drop (i + 1))
    (hok : PassOk ip log es)
    (hfail : ip.ec2api.DescribeInstances (log ++ passCalls es) (describeInput st.Previous[i])
      = .error err) :
    garbageCollectProfiles ip nodeClass log =
      ⟨withProfiles nodeClass { st with Previous := st.Previous.take (i + 1) ++ kept es },
        log ++ passCalls es ++ [.DescribeInstances (describeInput st.Previous[i])],
        .returned (some
          (Errorf ("checking instances using profile " ++ st.Previous[i] ++ ": ") err))⟩ := by
  have hne : st.Previous.length ≠ 0 := by omega
  rw [garbageCollectProfiles_eq_loop ip nodeClass st log hst hne,
    gcLoop_stops_at ip st log i hi es hes hok,
    gcLoop_query_fails ip _ i st.Previous[i] _ err
      (getElem?_take_succ_append st.Previous (kept es) i hi) hfail]

/-- C9 at `Previous = [P0, P1, P2]` with an inventory that fails on `P1`: `P2`
is removed, `P0` and `P1` stay, the call returns the wrapped error. -/
theorem garbageCollectProfiles_inventory_failure_witness :
    PassOk inventoryFailsOnP1 [] [("P2", false)] ∧
      (garbageCollectProfiles inventoryFailsOnP1
          (ncOf "role-B" (some ⟨"P3", ["P0", "P1", "P2"], 4⟩)) []).nodeClass
        = ncOf "role-B" (some ⟨"P3", ["P0", "P1"], 4⟩) ∧
      (garbageCollectProfiles inventoryFailsOnP1
          (ncOf "role-B" (some ⟨"P3", ["P0", "P1", "P2"], 4⟩)) []).log
        = [.DescribeInstances (describeInput "P2"), .Delete "P2",
            .DescribeInstances (describeInput "P1")] ∧
      (garbageCollectProfiles inventoryFailsOnP1
          (ncOf "role-B" (some ⟨"P3", ["P0", "P1", "P2"], 4⟩)) []).outcome
        = .returned (some (.wrapError "checking instances using profile P1: timeout"
            (.errorString "timeout"))) :=
  have hok : PassOk inventoryFailsOnP1 [] [("P2", false)] :=
    ⟨trivial, ⟨[]⟩, rfl, by decide, fun _ => rfl⟩
  have h := garbageCollectProfiles_inventory_failure inventoryFailsOnP1
    (ncOf "role-B" (some ⟨"P3", ["P0", "P1", "P2"], 4⟩)) ⟨"P3", ["P0", "P1", "P2"], 4⟩ []
    1 (by decide) [("P2", false)] (.errorString "timeout") rfl rfl hok rfl
  ⟨hok, by rw [h]; rfl, by rw [h]; rfl, by rw [h]; rfl⟩

/-- C10: a delete failure aborts the pass and keeps the entry. For every node
class with profile state `st` and every index `i` of `Previous`, if the entries
newer than `i` are visited without failure with verdicts `es`, the inventory
query for the entry at index `i` returns zero reservations and the delete of
that entry fails with `err`, then `garbageCollectProfiles` returns the error
wrapped with the profile name, the failing delete is the last call (nothing is
asked about older entries), and the entries at indices `0..i` are all still in
`Previous`, in the same order. -/
theorem garbageCollectProfiles_delete_failure (ip : InstanceProfile)
    (nodeClass : EC2NodeClass) (st : InstanceProfilesStatus) (log : List Call)
    (i : Nat) (hi : i < st.Previous.length) (es : List Marked)
    (out : DescribeInstancesOutput) (err : GoError)
    (hst : nodeClass.Status.InstanceProfiles = some st)
    (hes : es.map Prod.fst = st.Previous.drop (i + 1))
    (hok : PassOk ip log es)
    (hquery : ip.ec2api.DescribeInstances (log ++ passCalls es) (describeInput st.Previous[i])
      = .ok out)
    (hzero : out.Reservations.length = 0)
    (hfail : ip.instanceProfileProvider.Delete
      (log ++ passCalls es ++ [.DescribeInstances (describeInput st.Previous[i])])
      st.Previous[i] = some err) :
    garbageCollectProfiles ip nodeClass log =
      ⟨withProfiles nodeClass { st with Previous := st.Previous.take (i + 1) ++ kept es },
        log ++ passCalls es ++
          [.DescribeInstances (describeInput st.Previous[i]), .Delete st.Previous[i]],
        .returned (some
          (Errorf ("deleting instance profile " ++ st.Previous[i] ++ ": ") err))⟩ := by
  have hne : st.Previous.length ≠ 0 := by omega
  rw [garbageCollectProfiles_eq_loop ip nodeClass st log hst hne,
    gcLoop_stops_at ip st log i hi es hes hok,
    gcLoop_delete_fails ip _ i st.Previous[i] _ out err
      (getElem?_take_succ_append st.Previous (kept es) i hi) hquery hzero hfail]

/-- C10 at `Previous = [P0, P1, P2]` with an instance on `P2` only and a
failing delete: the pass stops at `P1`, nothing is asked about `P0`, and all
three entries stay. -/
theorem garbageCollectProfiles_delete_failure_witness :
    PassOk deleteFails [] [("P2", true)] ∧
      (garbageCollectProfiles deleteFails
          (ncOf "role-B" (some ⟨"P3", ["P0", "P1", "P2"], 4⟩)) []).nodeClass
        = ncOf "role-B" (some ⟨"P3", ["P0", "P1", "P2"], 4⟩) ∧
      (garbageCollectProfiles deleteFails
          (ncOf "role-B" (some ⟨"P3", ["P0", "P1", "P2"], 4⟩)) []).log
        = [.DescribeInstances (describeInput "P2"), .DescribeInstances (describeInput "P1"),
            .Delete "P1"] ∧
      (garbageCollectProfiles deleteFails
          (ncOf "role-B" (some ⟨"P3", ["P0", "P1", "P2"], 4⟩)) []).outcome
        = .returned (some (.wrapError "deleting instance profile P1: denied"
            (.errorString "denied"))) :=
  have hok : PassOk deleteFails [] [("P2", true)] :=
    ⟨trivial, ⟨["r-1"]⟩, rfl, by decide, fun h => absurd h (by decide)⟩
  have h := garbageCollectProfiles_delete_failure deleteFails
    (ncOf "role-B" (some ⟨"P3", ["P0", "P1", "P2"], 4⟩)) ⟨"P3", ["P0", "P1", "P2"], 4⟩ []
    1 (by decide) [("P2", true)] ⟨[]⟩ (.errorString "denied") rfl rfl hok rfl rfl rfl
  ⟨hok, by rw [h]; rfl, by rw [h]; rfl, by rw [h]; rfl⟩

/-! ## Lemmas on `Reconcile` -/

theorem initStatus_of_some (nodeClass : EC2NodeClass) (st : InstanceProfilesStatus)
    (hst : nodeClass.Status.InstanceProfiles = some st) : initStatus nodeClass = st := by
  simp [initStatus, hst]

theorem probeRole_log (ip : InstanceProfile) (st : InstanceProfilesStatus) (log : List Call) :
    (probeRole ip st log).2 = log ++ probeCalls st := by
  unfold probeRole probeCalls
  by_cases h : st.Current = ""
  · simp [h]
  · simp only [ne_eq, h, not_false_eq_true, if_true]
    cases ip.instanceProfileProvider.Get log st.Current <;> rfl

/-- The unmanaged path: no desired role. -/
theorem Reconcile_unmanaged (m : NodeClassMethods) (ip : InstanceProfile) (ctx : Context)
    (nodeClass : EC2NodeClass) (log : List Call) (hrole : nodeClass.Spec.Role = "") :
    Reconcile m ip ctx nodeClass log =
      ⟨{ nodeClass with Status := { nodeClass.Status with
            InstanceProfile := FromPtr nodeClass.Spec.InstanceProfile,
            InstanceProfileReady := .condTrue } },
        log, .returned none⟩ := by
  simp [Reconcile, hrole]

/-- No drift: the bound role is the desired role, only the collection pass runs. -/
theorem Reconcile_steady (m : NodeClassMethods) (ip : InstanceProfile) (ctx : Context)
    (nodeClass : EC2NodeClass) (st : InstanceProfilesStatus) (log : List Call)
    (hst : nodeClass.Status.InstanceProfiles = some st)
    (hrole : nodeClass.Spec.Role ≠ "")
    (hmatch : (probeRole ip st log).1 = nodeClass.Spec.Role) :
    Reconcile m ip ctx nodeClass log = collectAndFinish ip nodeClass (log ++ probeCalls st) := by
  have h0 : ({ nodeClass with Status := { nodeClass.Status with InstanceProfiles := some st } }
      : EC2NodeClass) = nodeClass := withProfiles_self nodeClass st hst
  simp only [Reconcile, ne_eq, hrole, not_false_eq_true, if_true,
    initStatus_of_some nodeClass st hst, hmatch, not_true_eq_false, if_false, h0, probeRole_log]

/-- Drift and a failing create: the error is returned after the counter was
incremented. -/
theorem Reconcile_create_fails (m : NodeClassMethods) (ip : InstanceProfile) (ctx : Context)
    (nodeClass : EC2NodeClass) (st : InstanceProfilesStatus) (log : List Call) (err : GoError)
    (hst : nodeClass.Status.InstanceProfiles = some st)
    (hrole : nodeClass.Spec.Role ≠ "")
    (hdrift : (probeRole ip st log).1 ≠ nodeClass.Spec.Role)
    (hcreate : ip.instanceProfileProvider.Create (log ++ probeCalls st)
      (rotationName m ip ctx nodeClass st) nodeClass.Spec.Role
      (m.InstanceProfileTags (withProfiles nodeClass { st with Version := st.Version + 1 })
        ctx.ClusterName ip.region) = some err) :
    Reconcile m ip ctx nodeClass log =
      ⟨withProfiles nodeClass { st with Version := st.Version + 1 },
        log ++ probeCalls st ++ [createCall m ip ctx nodeClass st],
        .returned (some (Errorf "creating instance profile, " err))⟩ := by
  simp only [rotationName, withProfiles] at hcreate
  simp only [Reconcile, ne_eq, hrole, not_false_eq_true, if_true,
    initStatus_of_some nodeClass st hst, hdrift, probeRole_log, InstanceProfileRole, hcreate,
    withProfiles, createCall, rotationName]

/-- Drift and a successful create: the rotation is made, then the collection
pass runs on the rotated node class. -/
theorem Reconcile_rotates (m : NodeClassMethods) (ip : InstanceProfile) (ctx : Context)
    (nodeClass : EC2NodeClass) (st : InstanceProfilesStatus) (log : List Call)
    (hst : nodeClass.Status.InstanceProfiles = some st)
    (hrole : nodeClass.Spec.Role ≠ "")
    (hdrift : (probeRole ip st log).1 ≠ nodeClass.Spec.Role)
    (hcreate : ip.instanceProfileProvider.Create (log ++ probeCalls st)
      (rotationName m ip ctx nodeClass st) nodeClass.Spec.Role
      (m.InstanceProfileTags (withProfiles nodeClass { st with Version := st.Version + 1 })
        ctx.ClusterName ip.region) = none) :
    Reconcile m ip ctx nodeClass log =
      collectAndFinish ip (rotated nodeClass st (rotationName m ip ctx nodeClass st))
        (log ++ probeCalls st ++ [createCall m ip ctx nodeClass st]) := by
  simp only [rotationName, withProfiles] at hcreate
  simp only [Reconcile, ne_eq, hrole, not_false_eq_true, if_true,
    initStatus_of_some nodeClass st hst, hdrift, probeRole_log, InstanceProfileRole, hcreate,
    withProfiles, createCall, rotationName, rotated]

/-- The collection pass and the readiness step change nothing of the node class
but `Previous` and the readiness condition, never panic, only remove entries of
`Previous`, and only add inventory queries and deletes of entries. -/
theorem collectAndFinish_frame (ip : InstanceProfile) (nodeClass : EC2NodeClass)
    (st : InstanceProfilesStatus) (log : List Call)
    (hst : nodeClass.Status.InstanceProfiles = some st) :
    ∃ X calls,
      (collectAndFinish ip nodeClass log).nodeClass.Status.InstanceProfiles
          = some { st with Previous := X } ∧
        (collectAndFinish ip nodeClass log).nodeClass.Status.InstanceProfile
          = nodeClass.Status.InstanceProfile ∧
        (collectAndFinish ip nodeClass log).nodeClass.Spec = nodeClass.Spec ∧
        (collectAndFinish ip nodeClass log).log = log ++ calls ∧
        (collectAndFinish ip nodeClass log).outcome ≠ .panicked ∧
        X.Sublist st.Previous ∧ (∀ c ∈ calls, IsGCCall st.Previous c) ∧
        ((∀ p, Call.Delete p ∉ calls) → X = st.Previous) := by
  by_cases hne : st.Previous.length = 0
  · have hgc : garbageCollectProfiles ip nodeClass log = ⟨nodeClass, log, .returned none⟩ := by
      simp [garbageCollectProfiles, hst, hne]
    refine ⟨st.Previous, [], ?_, ?_, ?_, ?_, ?_, List.Sublist.refl _, by simp, fun _ => rfl⟩ <;>
      simp [collectAndFinish, hgc, hst]
  · obtain ⟨X, calls, h1, h2, h3, h4, h5, h6⟩ :=
      gcLoop_frame ip st.Previous.length st log st.Previous [] (by simp) (Nat.le_refl _)
    have hgc := garbageCollectProfiles_eq_loop ip nodeClass st log hst hne
    rw [List.append_nil] at h1
    refine ⟨X, calls, ?_, ?_, ?_, ?_, ?_, h4, h5, h6⟩
    all_goals
      simp only [collectAndFinish, hgc]
      cases ho : (gcLoop ip st.Previous.length st log).outcome with
      | panicked => exact absurd ho h3
      | returned e =>
        cases e <;> simp [withProfiles, h1, h2]

/-! ## Rotation: creation failure, deletes, the state invariant -/

theorem delete_not_mem_probeCalls (st : InstanceProfilesStatus) (p : String) :
    Call.Delete p ∉ probeCalls st := by
  unfold probeCalls
  split <;> simp

theorem delete_of_isGCCall {prev : List String} {p : String} (h : IsGCCall prev (.Delete p)) :
    p ∈ prev := by
  rcases h with ⟨q, hq⟩ | ⟨q, hq, hmem⟩
  · cases hq
  · cases hq
    exact hmem

theorem rotated_profiles (nodeClass : EC2NodeClass) (st : InstanceProfilesStatus)
    (name : String) :
    (rotated nodeClass st name).Status.InstanceProfiles = some
      { Current := name,
        Previous := if st.Current ≠ "" then st.Previous ++ [st.Current] else st.Previous,
        Version := st.Version + 1 } := rfl

theorem mem_rotated_previous {st : InstanceProfilesStatus} {p : String}
    (h : p ∈ (if st.Current ≠ "" then st.Previous ++ [st.Current] else st.Previous)) :
    p ∈ st.Current :: st.Previous := by
  split at h
  · rw [List.mem_append, List.mem_singleton] at h
    rcases h with h | h
    · exact List.mem_cons_of_mem _ h
    · rw [h]; exact List.mem_cons_self _ _
  · exact List.mem_cons_of_mem _ h

/-- C1 (the code at the failing input): prior state `current = P1, previous = [],
version = 1`, the current profile bound to `role-A`, desired role `role-B`, and a
create that fails. `Reconcile` returns the wrapped error and leaves `current` and
`previous` as they were, but the state it leaves has `version = 2`: the counter
is incremented on line 70, before the create call. -/
theorem Reconcile_create_failure_increments_version :
    (Reconcile (constMethods "P2") (createFails "role-A") exampleCtx
        (ncOf "role-B" (some ⟨"P1", [], 1⟩)) []).outcome
      = .returned (some (.wrapError "creating instance profile, quota" (.errorString "quota"))) ∧
    (Reconcile (constMethods "P2") (createFails "role-A") exampleCtx
        (ncOf "role-B" (some ⟨"P1", [], 1⟩)) []).nodeClass.Status.InstanceProfiles
      = some ⟨"P1", [], 2⟩ ∧
    (Reconcile (constMethods "P2") (createFails "role-A") exampleCtx
        (ncOf "role-B" (some ⟨"P1", [], 1⟩)) []).nodeClass.Status.InstanceProfiles
      ≠ (ncOf "role-B" (some ⟨"P1", [], 1⟩)).Status.InstanceProfiles := by
  decide

/-- C2 as stated fails. First run: the naming function returns the name of the
current profile `P1`; the rotation retires `P1` into `previous`, the collection
pass finds no instance on it and deletes it, and `P1` is `current` when the run
returns. Second run: a prior state that lists its current profile `P1` in
`previous`, no drift; the collection pass deletes `P1`. -/
theorem Reconcile_deletes_current_counterexample :
    ((Reconcile (constMethods "P1") (quiet "role-A") exampleCtx
          (ncOf "role-B" (some ⟨"P1", [], 1⟩)) []).nodeClass.Status.InstanceProfiles
        = some ⟨"P1", [], 2⟩ ∧
      (Reconcile (constMethods "P1") (quiet "role-A") exampleCtx
          (ncOf "role-B" (some ⟨"P1", [], 1⟩)) []).log
        = [.Get "P1", .Create "P1" "role-B" [], .DescribeInstances (describeInput "P1"),
            .Delete "P1"]) ∧
    ((Reconcile (constMethods "P2") (quiet "role-B") exampleCtx
          (ncOf "role-B" (some ⟨"P1", ["P1"], 1⟩)) []).nodeClass.Status.InstanceProfiles
        = some ⟨"P1", [], 1⟩ ∧
      (Reconcile (constMethods "P2") (quiet "role-B") exampleCtx
          (ncOf "role-B" (some ⟨"P1", ["P1"], 1⟩)) []).log
        = [.Get "P1", .DescribeInstances (describeInput "P1"), .Delete "P1"]) := by
  decide

/-- C2 (amended): for every prior profile state whose `current` is not in
`previous`, every desired role and every behaviour of the collaborators, if the
name the naming function returns for a rotation differs from the prior
`current` and from every entry of `previous`, then no delete call made during
the run names the profile that is `current` when the run returns. -/
theorem Reconcile_never_deletes_current (m : NodeClassMethods) (ip : InstanceProfile)
    (ctx : Context) (nodeClass : EC2NodeClass) (st : InstanceProfilesStatus) (log : List Call)
    (hst : nodeClass.Status.InstanceProfiles = some st)
    (hinv : st.Current ∉ st.Previous)
    (hfresh : nodeClass.Spec.Role ≠ "" → (probeRole ip st log).1 ≠ nodeClass.Spec.Role →
      rotationName m ip ctx nodeClass st ∉ st.Current :: st.Previous) :
    ∃ calls, (Reconcile m ip ctx nodeClass log).log = log ++ calls ∧
      ∀ st', (Reconcile m ip ctx nodeClass log).nodeClass.Status.InstanceProfiles = some st' →
        Call.Delete st'.Current ∉ calls := by
  by_cases hrole : nodeClass.Spec.Role = ""
  · rw [Reconcile_unmanaged m ip ctx nodeClass log hrole]
    exact ⟨[], by simp, by simp⟩
  by_cases hmatch : (probeRole ip st log).1 = nodeClass.Spec.Role
  · rw [Reconcile_steady m ip ctx nodeClass st log hst hrole hmatch]
    obtain ⟨X, calls, h1, _, _, h4, _, _, h7, _⟩ :=
      collectAndFinish_frame ip nodeClass st (log ++ probeCalls st) hst
    refine ⟨probeCalls st ++ calls, by rw [h4, List.append_assoc], ?_⟩
    intro st' hst' hmem
    rw [h1] at hst'
    cases hst'
    rw [List.mem_append] at hmem
    rcases hmem with hmem | hmem
    · exact delete_not_mem_probeCalls st _ hmem
    · exact hinv (delete_of_isGCCall (h7 _ hmem))
  · cases hcreate : ip.instanceProfileProvider.Create (log ++ probeCalls st)
        (rotationName m ip ctx nodeClass st) nodeClass.Spec.Role
        (m.InstanceProfileTags (withProfiles nodeClass { st with Version := st.Version + 1 })
          ctx.ClusterName ip.region) with
    | some err =>
      rw [Reconcile_create_fails m ip ctx nodeClass st log err hst hrole hmatch hcreate]
      refine ⟨probeCalls st ++ [createCall m ip ctx nodeClass st], by simp, ?_⟩
      intro st' _ hmem
      rw [List.mem_append, List.mem_singleton] at hmem
      rcases hmem with hmem | hmem
      · exact delete_not_mem_probeCalls st _ hmem
      · simp [createCall] at hmem
    | none =>
      rw [Reconcile_rotates m ip ctx nodeClass st log hst hrole hmatch hcreate]
      obtain ⟨X, calls, h1, _, _, h4, _, _, h7, _⟩ :=
        collectAndFinish_frame ip (rotated nodeClass st (rotationName m ip ctx nodeClass st)) _
          (log ++ probeCalls st ++ [createCall m ip ctx nodeClass st]) (rotated_profiles _ _ _)
      refine ⟨probeCalls st ++ [createCall m ip ctx nodeClass st] ++ calls,
        by rw [h4]; simp, ?_⟩
      intro st' hst' hmem
      rw [h1] at hst'
      cases hst'
      rw [List.mem_append, List.mem_append, List.mem_singleton] at hmem
      rcases hmem with (hmem | hmem) | hmem
      · exact delete_not_mem_probeCalls st _ hmem
      · simp [createCall] at hmem
      · exact hfresh hrole hmatch (mem_rotated_previous (delete_of_isGCCall (h7 _ hmem)))

/-- C2 (amended) at Scenario B with no instance on any profile: `P1` is retired
and deleted, the new profile `P2` is current and is not deleted. -/
theorem Reconcile_never_deletes_current_witness :
    "P1" ∉ ([] : List String) ∧ "P2" ∉ ["P1"] ∧
      (Reconcile (constMethods "P2") (quiet "role-A") exampleCtx
          (ncOf "role-B" (some ⟨"P1", [], 1⟩)) []).nodeClass.Status.InstanceProfiles
        = some ⟨"P2", [], 2⟩ ∧
      (Reconcile (constMethods "P2") (quiet "role-A") exampleCtx
          (ncOf "role-B" (some ⟨"P1", [], 1⟩)) []).log
        = [.Get "P1", .Create "P2" "role-B" [], .DescribeInstances (describeInput "P1"),
            .Delete "P1"] ∧
      Call.Delete "P2" ∉ [Call.Get "P1", .Create "P2" "role-B" [],
        .DescribeInstances (describeInput "P1"), .Delete "P1"] := by
  obtain ⟨calls, hlog, h⟩ :=
    Reconcile_never_deletes_current (constMethods "P2") (quiet "role-A") exampleCtx
      (ncOf "role-B" (some ⟨"P1", [], 1⟩)) ⟨"P1", [], 1⟩ [] rfl (by decide)
      (fun _ _ => by decide)
  have hcalls : [Call.Get "P1", .Create "P2" "role-B" [],
      .DescribeInstances (describeInput "P1"), .Delete "P1"] = calls := hlog
  subst hcalls
  exact ⟨by decide, by decide, rfl, rfl, h ⟨"P2", [], 2⟩ rfl⟩

/-- C3 as stated fails: prior state `current = P1, previous = []`, drift, and a
naming function that returns `P1` again. With an instance still on `P1` the run
succeeds and leaves `current = P1` inside `previous = [P1]`. -/
theorem Reconcile_current_in_previous_counterexample :
    "P1" ∉ ([] : List String) ∧
    (Reconcile (constMethods "P1") (busy "role-A") exampleCtx
        (ncOf "role-B" (some ⟨"P1", [], 1⟩)) []).outcome = .returned none ∧
    (Reconcile (constMethods "P1") (busy "role-A") exampleCtx
        (ncOf "role-B" (some ⟨"P1", [], 1⟩)) []).nodeClass.Status.InstanceProfiles
      = some ⟨"P1", ["P1"], 2⟩ := by
  decide

/-- C3 (amended): for every prior profile state whose `current` is not in
`previous`, every desired role and every behaviour of the collaborators, if the
name the naming function returns for a rotation differs from the prior
`current` and from every entry of `previous`, then the profile state after the
run again has `current` not in `previous`. -/
theorem Reconcile_preserves_current_not_in_previous (m : NodeClassMethods)
    (ip : InstanceProfile) (ctx : Context) (nodeClass : EC2NodeClass)
    (st : InstanceProfilesStatus) (log : List Call)
    (hst : nodeClass.Status.InstanceProfiles = some st)
    (hinv : st.Current ∉ st.Previous)
    (hfresh : nodeClass.Spec.Role ≠ "" → (probeRole ip st log).1 ≠ nodeClass.Spec.Role →
      rotationName m ip ctx nodeClass st ∉ st.Current :: st.Previous) :
    ∀ st', (Reconcile m ip ctx nodeClass log).nodeClass.Status.InstanceProfiles = some st' →
      st'.Current ∉ st'.Previous := by
  by_cases hrole : nodeClass.Spec.Role = ""
  · rw [Reconcile_unmanaged m ip ctx nodeClass log hrole]
    intro st' hst'
    simp only [hst, Option.some.injEq] at hst'
    rw [← hst']
    exact hinv
  by_cases hmatch : (probeRole ip st log).1 = nodeClass.Spec.Role
  · rw [Reconcile_steady m ip ctx nodeClass st log hst hrole hmatch]
    obtain ⟨X, calls, h1, _, _, _, _, h6, _, _⟩ :=
      collectAndFinish_frame ip nodeClass st (log ++ probeCalls st) hst
    intro st' hst' hmem
    rw [h1] at hst'
    cases hst'
    exact hinv (h6.subset hmem)
  · cases hcreate : ip.instanceProfileProvider.Create (log ++ probeCalls st)
        (rotationName m ip ctx nodeClass st) nodeClass.Spec.Role
        (m.InstanceProfileTags (withProfiles nodeClass { st with Version := st.Version + 1 })
          ctx.ClusterName ip.region) with
    | some err =>
      rw [Reconcile_create_fails m ip ctx nodeClass st log err hst hrole hmatch hcreate]
      intro st' hst'
      simp only [withProfiles, Option.some.injEq] at hst'
      rw [← hst']
      exact hinv
    | none =>
      rw [Reconcile_rotates m ip ctx nodeClass st log hst hrole hmatch hcreate]
      obtain ⟨X, calls, h1, _, _, _, _, h6, _, _⟩ :=
        collectAndFinish_frame ip (rotated nodeClass st (rotationName m ip ctx nodeClass st)) _
          (log ++ probeCalls st ++ [createCall m ip ctx nodeClass st]) (rotated_profiles _ _ _)
      intro st' hst' hmem
      rw [h1] at hst'
      cases hst'
      exact hfresh hrole hmatch (mem_rotated_previous (h6.subset hmem))

/-- C3 (amended) at Scenario B with an instance on every profile: the state
after the run is `current = P2, previous = [P1]`. -/
theorem Reconcile_preserves_current_not_in_previous_witness :
    "P1" ∉ ([] : List String) ∧ "P2" ∉ ["P1"] ∧
      (Reconcile (constMethods "P2") (busy "role-A") exampleCtx
          (ncOf "role-B" (some ⟨"P1", [], 1⟩)) []).nodeClass.Status.InstanceProfiles
        = some ⟨"P2", ["P1"], 2⟩ ∧
      (⟨"P2", ["P1"], 2⟩ : InstanceProfilesStatus).Current
        ∉ (⟨"P2", ["P1"], 2⟩ : InstanceProfilesStatus).Previous :=
  ⟨by decide, by decide, rfl,
    Reconcile_preserves_current_not_in_previous (constMethods "P2") (busy "role-A") exampleCtx
      (ncOf "role-B" (some ⟨"P1", [], 1⟩)) ⟨"P1", [], 1⟩ [] rfl (by decide)
      (fun _ _ => by decide) ⟨"P2", ["P1"], 2⟩ rfl⟩

/-! ## Rotation records history -/

theorem collectAndFinish_status (ip : InstanceProfile) (nodeClass : EC2NodeClass)
    (st : InstanceProfilesStatus) (log : List Call)
    (hst : nodeClass.Status.InstanceProfiles = some st) (hne : st.Previous.length ≠ 0) :
    (collectAndFinish ip nodeClass log).nodeClass.Status.InstanceProfiles
      = some (gcLoop ip st.Previous.length st log).status := by
  simp only [collectAndFinish, garbageCollectProfiles_eq_loop ip nodeClass st log hst hne]
  cases (gcLoop ip st.Previous.length st log).outcome with
  | panicked => rfl
  | returned e => cases e <;> rfl

theorem probeCalls_of_current (st : InstanceProfilesStatus) (hcur : st.Current ≠ "") :
    probeCalls st = [.Get st.Current] := by
  simp [probeCalls, hcur]

/-- C4 as stated fails. First run (Scenario B with no instance left on `P1`):
the run succeeds and the collection pass of the same run removes the old
current, `previous = []`. Second run: a prior state that lists its current
profile in `previous`; after the rotation it is there twice. Third run: an
empty desired role differs from the bound role `role-A`, the run succeeds and
nothing is rotated. -/
theorem Reconcile_rotation_history_counterexample :
    ((Reconcile (constMethods "P2") (quiet "role-A") exampleCtx
          (ncOf "role-B" (some ⟨"P1", [], 1⟩)) []).outcome = .returned none ∧
      (Reconcile (constMethods "P2") (quiet "role-A") exampleCtx
          (ncOf "role-B" (some ⟨"P1", [], 1⟩)) []).nodeClass.Status.InstanceProfiles
        = some ⟨"P2", [], 2⟩) ∧
    ((Reconcile (constMethods "P2") (busy "role-A") exampleCtx
          (ncOf "role-B" (some ⟨"P1", ["P1"], 1⟩)) []).outcome = .returned none ∧
      (Reconcile (constMethods "P2") (busy "role-A") exampleCtx
          (ncOf "role-B" (some ⟨"P1", ["P1"], 1⟩)) []).nodeClass.Status.InstanceProfiles
        = some ⟨"P2", ["P1", "P1"], 2⟩) ∧
    ((Reconcile (constMethods "P2") (busy "role-A") exampleCtx
          (ncOf "" (some ⟨"P1", [], 1⟩)) []).outcome = .returned none ∧
      (Reconcile (constMethods "P2") (busy "role-A") exampleCtx
          (ncOf "" (some ⟨"P1", [], 1⟩)) []).nodeClass.Status.InstanceProfiles
        = some ⟨"P1", [], 1⟩) := by
  decide

/-- C4 (amended): for every prior profile state with a non-empty `current` that
is not in `previous`, and every non-empty desired role that differs from the
role the probe finds bound to `current`, after a run that returns success and
in which the inventory query for the old current returned a reservation, the
old current is the last element of `previous` and appears in it exactly once,
`current` and the active profile are the newly created name, and `version` is
one more than before. -/
theorem Reconcile_rotation_records_history (m : NodeClassMethods) (ip : InstanceProfile)
    (ctx : Context) (nodeClass : EC2NodeClass) (st : InstanceProfilesStatus) (log : List Call)
    (out : DescribeInstancesOutput)
    (hst : nodeClass.Status.InstanceProfiles = some st)
    (hcur : st.Current ≠ "")
    (hinv : st.Current ∉ st.Previous)
    (hrole : nodeClass.Spec.Role ≠ "")
    (hdrift : (probeRole ip st log).1 ≠ nodeClass.Spec.Role)
    (hsuccess : (Reconcile m ip ctx nodeClass log).outcome = .returned none)
    (hquery : ip.ec2api.DescribeInstances
      (log ++ [.Get st.Current, createCall m ip ctx nodeClass st]) (describeInput st.Current)
        = .ok out)
    (hused : out.Reservations.length ≠ 0) :
    ∃ st', (Reconcile m ip ctx nodeClass log).nodeClass.Status.InstanceProfiles = some st' ∧
      st'.Current = rotationName m ip ctx nodeClass st ∧
      st'.Previous.getLast? = some st.Current ∧
      st'.Previous.count st.Current = 1 ∧
      st'.Version = st.Version + 1 ∧
      (Reconcile m ip ctx nodeClass log).nodeClass.Status.InstanceProfile
        = rotationName m ip ctx nodeClass st := by
  have hlog : log ++ probeCalls st ++ [createCall m ip ctx nodeClass st]
      = log ++ [.Get st.Current, createCall m ip ctx nodeClass st] := by
    rw [probeCalls_of_current st hcur]; simp
  cases hcreate : ip.instanceProfileProvider.Create (log ++ probeCalls st)
      (rotationName m ip ctx nodeClass st) nodeClass.Spec.Role
      (m.InstanceProfileTags (withProfiles nodeClass { st with Version := st.Version + 1 })
        ctx.ClusterName ip.region) with
  | some err =>
    rw [Reconcile_create_fails m ip ctx nodeClass st log err hst hrole hdrift hcreate] at hsuccess
    simp at hsuccess
  | none =>
    rw [Reconcile_rotates m ip ctx nodeClass st log hst hrole hdrift hcreate, hlog]
    have hrot := rotated_profiles nodeClass st (rotationName m ip ctx nodeClass st)
    simp only [ne_eq, hcur, not_false_eq_true, if_true] at hrot
    obtain ⟨_, _, _, hip, _, _, _, _, _, _⟩ := collectAndFinish_frame ip
      (rotated nodeClass st (rotationName m ip ctx nodeClass st)) _
      (log ++ [.Get st.Current, createCall m ip ctx nodeClass st]) hrot
    rw [collectAndFinish_status ip _ _ _ hrot (by simp), hip]
    have hv : VisitOk ip (log ++ [.Get st.Current, createCall m ip ctx nodeClass st])
        (st.Current, true) :=
      ⟨out, hquery, by simp [hused], by simp⟩
    simp only [List.length_append, List.length_singleton]
    rw [gcLoop_visit ip _ st.Previous [] _ (st.Current, true) (by simp) hv]
    obtain ⟨X, calls, h1, _, _, h4, _, _⟩ := gcLoop_frame ip st.Previous.length
      { Current := rotationName m ip ctx nodeClass st,
        Previous := st.Previous ++ ((if (st.Current, true).2 = true then [(st.Current, true).1]
          else []) ++ []),
        Version := st.Version + 1 }
      (log ++ [.Get st.Current, createCall m ip ctx nodeClass st] ++ visitCalls (st.Current, true))
      st.Previous [st.Current] (by simp) (Nat.le_refl _)
    refine ⟨_, rfl, ?_, ?_, ?_, ?_, rfl⟩
    · rw [h1]
    · rw [h1]; simp
    · rw [h1]
      have hX : st.Current ∉ X := fun h => hinv (h4.subset h)
      simp [List.count_eq_zero_of_not_mem hX]
    · rw [h1]

/-- C4 (amended), Scenario B with an instance still on `P1`: prior state
`current = P1, version = 1`, desired role `role-B`; the run leaves
`current = P2, version = 2, previous = [P1]`. -/
theorem Reconcile_rotation_records_history_witness :
    (Reconcile (constMethods "P2") (busy "role-A") exampleCtx
        (ncOf "role-B" (some ⟨"P1", [], 1⟩)) []).outcome = .returned none ∧
    (Reconcile (constMethods "P2") (busy "role-A") exampleCtx
        (ncOf "role-B" (some ⟨"P1", [], 1⟩)) []).nodeClass.Status.InstanceProfiles
      = some ⟨"P2", ["P1"], 2⟩ ∧
    ∃ st', (Reconcile (constMethods "P2") (busy "role-A") exampleCtx
          (ncOf "role-B" (some ⟨"P1", [], 1⟩)) []).nodeClass.Status.InstanceProfiles
        = some st' ∧
      st'.Current = "P2" ∧ st'.Previous.getLast? = some "P1" ∧ st'.Previous.count "P1" = 1 ∧
      st'.Version = 1 + 1 ∧
      (Reconcile (constMethods "P2") (busy "role-A") exampleCtx
          (ncOf "role-B" (some ⟨"P1", [], 1⟩)) []).nodeClass.Status.InstanceProfile = "P2" :=
  ⟨rfl, rfl,
    Reconcile_rotation_records_history (constMethods "P2") (busy "role-A") exampleCtx
      (ncOf "role-B" (some ⟨"P1", [], 1⟩)) ⟨"P1", [], 1⟩ [] ⟨["r-1"]⟩ rfl (by decide)
      (by decide) (by decide) (by decide) rfl rfl (by decide)⟩

/-! ## The version counter -/

theorem garbageCollectProfiles_version (ip : InstanceProfile) (nodeClass : EC2NodeClass)
    (st : InstanceProfilesStatus) (log : List Call)
    (hst : nodeClass.Status.InstanceProfiles = some st) :
    versionOf (garbageCollectProfiles ip nodeClass log).nodeClass = some st.Version := by
  by_cases hne : st.Previous.length = 0
  · simp [garbageCollectProfiles, hst, hne, versionOf]
  · obtain ⟨X, calls, h1, _⟩ :=
      gcLoop_frame ip st.Previous.length st log st.Previous [] (by simp) (Nat.le_refl _)
    rw [garbageCollectProfiles_eq_loop ip nodeClass st log hst hne]
    simp [versionOf, withProfiles, h1]

/-- With drift the counter is incremented once, whether `Create` succeeds or
fails and whatever the collection pass does (line 70). -/
theorem Reconcile_version_of_drift (m : NodeClassMethods) (ip : InstanceProfile)
    (ctx : Context) (nodeClass : EC2NodeClass) (st : InstanceProfilesStatus) (log : List Call)
    (hst : nodeClass.Status.InstanceProfiles = some st)
    (hrole : nodeClass.Spec.Role ≠ "")
    (hdrift : (probeRole ip st log).1 ≠ nodeClass.Spec.Role) :
    versionOf (Reconcile m ip ctx nodeClass log).nodeClass = some (st.Version + 1) := by
  cases hcreate : ip.instanceProfileProvider.Create (log ++ probeCalls st)
      (rotationName m ip ctx nodeClass st) nodeClass.Spec.Role
      (m.InstanceProfileTags (withProfiles nodeClass { st with Version := st.Version + 1 })
        ctx.ClusterName ip.region) with
  | some err =>
    rw [Reconcile_create_fails m ip ctx nodeClass st log err hst hrole hdrift hcreate]
    simp [versionOf, withProfiles]
  | none =>
    rw [Reconcile_rotates m ip ctx nodeClass st log hst hrole hdrift hcreate]
    obtain ⟨X, calls, h1, _⟩ := collectAndFinish_frame ip
      (rotated nodeClass st (rotationName m ip ctx nodeClass st)) _
      (log ++ probeCalls st ++ [createCall m ip ctx nodeClass st]) (rotated_profiles _ _ _)
    simp only [versionOf, h1, Option.map_some']

/-- Without drift, and on the unmanaged path, the counter is unchanged. -/
theorem Reconcile_version_of_match (m : NodeClassMethods) (ip : InstanceProfile)
    (ctx : Context) (nodeClass : EC2NodeClass) (st : InstanceProfilesStatus) (log : List Call)
    (hst : nodeClass.Status.InstanceProfiles = some st)
    (hmatch : (probeRole ip st log).1 = nodeClass.Spec.Role) :
    versionOf (Reconcile m ip ctx nodeClass log).nodeClass = some st.Version := by
  by_cases hrole : nodeClass.Spec.Role = ""
  · rw [Reconcile_unmanaged m ip ctx nodeClass log hrole]
    simp [versionOf, hst]
  · rw [Reconcile_steady m ip ctx nodeClass st log hst hrole hmatch]
    obtain ⟨X, calls, h1, _⟩ := collectAndFinish_frame ip nodeClass st (log ++ probeCalls st) hst
    simp [versionOf, h1]

/-- C5 (the code at the failing input): the counter does not count rotations
only. Prior state `current = P1, previous = [], version = 1`, the current
profile bound to `role-A`, desired role `role-B`. In the first run `Create`
fails: nothing is rotated (`current = P1`, `previous = []`), yet the run leaves
`version = 2`. The retry, on the node class and the log the first run left,
succeeds and rotates to `P2`: it leaves `version = 3`. One rotation moved the
counter from 1 to 3. -/
theorem Reconcile_version_counts_failed_create :
    (Reconcile (constMethods "P2") (createFails "role-A") exampleCtx
        (ncOf "role-B" (some ⟨"P1", [], 1⟩)) []).outcome
      = .returned (some (.wrapError "creating instance profile, quota" (.errorString "quota"))) ∧
    (Reconcile (constMethods "P2") (createFails "role-A") exampleCtx
        (ncOf "role-B" (some ⟨"P1", [], 1⟩)) []).nodeClass
      = ncOf "role-B" (some ⟨"P1", [], 2⟩) ∧
    (Reconcile (constMethods "P2") (createFails "role-A") exampleCtx
        (ncOf "role-B" (some ⟨"P1", [], 1⟩)) []).log
      = [.Get "P1", .Create "P2" "role-B" []] ∧
    (Reconcile (constMethods "P2") (busy "role-A") exampleCtx
        (ncOf "role-B" (some ⟨"P1", [], 2⟩)) [.Get "P1", .Create "P2" "role-B" []]).outcome
      = .returned none ∧
    (Reconcile (constMethods "P2") (busy "role-A") exampleCtx
        (ncOf "role-B" (some ⟨"P1", [], 2⟩))
        [.Get "P1", .Create "P2" "role-B" []]).nodeClass.Status.InstanceProfiles
      = some ⟨"P2", ["P1"], 3⟩ := by
  refine ⟨by decide, by decide, by decide, by decide, by decide⟩

/-! ## Idempotence of the drift check -/

theorem probeRole_of_bound (ip : InstanceProfile) (st : InstanceProfilesStatus) (log : List Call)
    (profile : IAMInstanceProfile) (r : Role) (rest : List Role)
    (hcur : st.Current ≠ "")
    (hget : ip.instanceProfileProvider.Get log st.Current = .ok profile)
    (hroles : profile.Roles = r :: rest) :
    (probeRole ip st log).1 = FromPtr r.RoleName := by
  simp [probeRole, hcur, hget, hroles]

theorem create_not_mem_of_isGCCall {prev : List String} {calls : List Call}
    (h : ∀ c ∈ calls, IsGCCall prev c) (name role : String) (tags : List (String × String)) :
    Call.Create name role tags ∉ calls := by
  intro hmem
  rcases h _ hmem with ⟨q, hq⟩ | ⟨q, hq, _⟩ <;> cases hq

/-- C6 as stated fails: `current = P2` bound to the desired role `role-B`,
`previous = [P1]`, no instance on `P1`. The run makes no create call and
succeeds, and its collection pass removes `P1` from `previous`. -/
theorem Reconcile_steady_changes_previous_counterexample :
    (Reconcile (constMethods "P3") (quiet "role-B") exampleCtx
        (ncOf "role-B" (some ⟨"P2", ["P1"], 2⟩)) []).outcome = .returned none ∧
    (Reconcile (constMethods "P3") (quiet "role-B") exampleCtx
        (ncOf "role-B" (some ⟨"P2", ["P1"], 2⟩)) []).log
      = [.Get "P2", .DescribeInstances (describeInput "P1"), .Delete "P1"] ∧
    (Reconcile (constMethods "P3") (quiet "role-B") exampleCtx
        (ncOf "role-B" (some ⟨"P2", ["P1"], 2⟩)) []).nodeClass.Status.InstanceProfiles
      = some ⟨"P2", [], 2⟩ := by
  decide

/-- C6 (amended): for every profile state with a non-empty `current` whose
profile, as `Get` returns it, is bound to a role equal to the non-empty desired
role, the run makes no create call and leaves `current`, `version` and the
active profile unchanged; `previous` only loses entries to the collection pass
of the run: it is a sublist of the prior `previous`, and it is unchanged when
the run makes no delete call. -/
theorem Reconcile_idempotent (m : NodeClassMethods) (ip : InstanceProfile) (ctx : Context)
    (nodeClass : EC2NodeClass) (st : InstanceProfilesStatus) (log : List Call)
    (profile : IAMInstanceProfile) (r : Role) (rest : List Role)
    (hst : nodeClass.Status.InstanceProfiles = some st)
    (hcur : st.Current ≠ "")
    (hrole : nodeClass.Spec.Role ≠ "")
    (hget : ip.instanceProfileProvider.Get log st.Current = .ok profile)
    (hroles : profile.Roles = r :: rest)
    (hbound : FromPtr r.RoleName = nodeClass.Spec.Role) :
    ∃ prev calls,
      (Reconcile m ip ctx nodeClass log).log = log ++ calls ∧
      (∀ name role tags, Call.Create name role tags ∉ calls) ∧
      (Reconcile m ip ctx nodeClass log).nodeClass.Status.InstanceProfiles
        = some { Current := st.Current, Previous := prev, Version := st.Version } ∧
      (Reconcile m ip ctx nodeClass log).nodeClass.Status.InstanceProfile
        = nodeClass.Status.InstanceProfile ∧
      prev.Sublist st.Previous ∧
      ((∀ p, Call.Delete p ∉ calls) → prev = st.Previous) := by
  have hmatch : (probeRole ip st log).1 = nodeClass.Spec.Role := by
    rw [probeRole_of_bound ip st log profile r rest hcur hget hroles, hbound]
  rw [Reconcile_steady m ip ctx nodeClass st log hst hrole hmatch]
  obtain ⟨X, calls, h1, h2, _, h4, _, h6, h7, h8⟩ :=
    collectAndFinish_frame ip nodeClass st (log ++ probeCalls st) hst
  refine ⟨X, probeCalls st ++ calls, by rw [h4, List.append_assoc], ?_, h1, h2, h6, ?_⟩
  · intro name role tags hmem
    rw [List.mem_append] at hmem
    rcases hmem with hmem | hmem
    · simp [probeCalls_of_current st hcur] at hmem
    · exact create_not_mem_of_isGCCall h7 name role tags hmem
  · intro hno
    exact h8 (fun p hp => hno p (List.mem_append_right _ hp))

/-- C6 (amended) at the state Scenario B leaves, `current = P2` bound to
`role-B`, `previous = [P1]`, with an instance still on `P1`: the second run
makes one `Get` and one inventory query and changes nothing. -/
theorem Reconcile_idempotent_witness :
    (Reconcile (constMethods "P3") (busy "role-B") exampleCtx
        (ncOf "role-B" (some ⟨"P2", ["P1"], 2⟩)) []).log
      = [.Get "P2", .DescribeInstances (describeInput "P1")] ∧
    ∃ prev calls,
      (Reconcile (constMethods "P3") (busy "role-B") exampleCtx
          (ncOf "role-B" (some ⟨"P2", ["P1"], 2⟩)) []).log = [] ++ calls ∧
      (∀ name role tags, Call.Create name role tags ∉ calls) ∧
      (Reconcile (constMethods "P3") (busy "role-B") exampleCtx
          (ncOf "role-B" (some ⟨"P2", ["P1"], 2⟩)) []).nodeClass.Status.InstanceProfiles
        = some { Current := "P2", Previous := prev, Version := 2 } ∧
      (Reconcile (constMethods "P3") (busy "role-B") exampleCtx
          (ncOf "role-B" (some ⟨"P2", ["P1"], 2⟩)) []).nodeClass.Status.InstanceProfile = "" ∧
      prev.Sublist ["P1"] ∧
      ((∀ p, Call.Delete p ∉ calls) → prev = ["P1"]) :=
  ⟨rfl,
    Reconcile_idempotent (constMethods "P3") (busy "role-B") exampleCtx
      (ncOf "role-B" (some ⟨"P2", ["P1"], 2⟩)) ⟨"P2", ["P1"], 2⟩ [] ⟨[⟨some "role-B"⟩]⟩
      ⟨some "role-B"⟩ [] rfl (by decide) (by decide) rfl rfl rfl⟩

/-! ## A failed drift probe -/

theorem gcLoop_withGet (ip : InstanceProfile)
    (get : List Call → String → Except GoError IAMInstanceProfile) (k : Nat) :
    ∀ (st : InstanceProfilesStatus) (log : List Call),
      gcLoop (withGet ip get) k st log = gcLoop ip k st log := by
  induction k with
  | zero => intro st log; rfl
  | succ i ih =>
    intro st log
    rw [gcLoop, gcLoop]
    simp only [ih]
    rfl

theorem collectAndFinish_withGet (ip : InstanceProfile)
    (get : List Call → String → Except GoError IAMInstanceProfile) (nodeClass : EC2NodeClass)
    (log : List Call) :
    collectAndFinish (withGet ip get) nodeClass log = collectAndFinish ip nodeClass log := by
  simp only [collectAndFinish, garbageCollectProfiles, gcLoop_withGet]

theorem probeRole_of_get_error (ip : InstanceProfile) (st : InstanceProfilesStatus)
    (log : List Call) (err : GoError) (hcur : st.Current ≠ "")
    (hget : ip.instanceProfileProvider.Get log st.Current = .error err) :
    (probeRole ip st log).1 = "" := by
  simp [probeRole, hcur, hget]

theorem probeRole_of_no_role (ip : InstanceProfile) (st : InstanceProfilesStatus)
    (log : List Call) (hcur : st.Current ≠ "")
    (hget : ip.instanceProfileProvider.Get log st.Current = .ok ⟨[]⟩) :
    (probeRole ip st log).1 = "" := by
  simp [probeRole, hcur, hget]

/-- With drift, `Reconcile` is one of two runs, fixed by the answer of `Create`
alone. -/
theorem Reconcile_drift (m : NodeClassMethods) (ip : InstanceProfile) (ctx : Context)
    (nodeClass : EC2NodeClass) (st : InstanceProfilesStatus) (log : List Call)
    (hst : nodeClass.Status.InstanceProfiles = some st)
    (hrole : nodeClass.Spec.Role ≠ "")
    (hdrift : (probeRole ip st log).1 ≠ nodeClass.Spec.Role) :
    Reconcile m ip ctx nodeClass log =
      match ip.instanceProfileProvider.Create (log ++ probeCalls st)
        (rotationName m ip ctx nodeClass st) nodeClass.Spec.Role
        (m.InstanceProfileTags (withProfiles nodeClass { st with Version := st.Version + 1 })
          ctx.ClusterName ip.region) with
      | some err =>
        ⟨withProfiles nodeClass { st with Version := st.Version + 1 },
          log ++ probeCalls st ++ [createCall m ip ctx nodeClass st],
          .returned (some (Errorf "creating instance profile, " err))⟩
      | none =>
        collectAndFinish ip (rotated nodeClass st (rotationName m ip ctx nodeClass st))
          (log ++ probeCalls st ++ [createCall m ip ctx nodeClass st]) := by
  cases hcreate : ip.instanceProfileProvider.Create (log ++ probeCalls st)
      (rotationName m ip ctx nodeClass st) nodeClass.Spec.Role
      (m.InstanceProfileTags (withProfiles nodeClass { st with Version := st.Version + 1 })
        ctx.ClusterName ip.region) with
  | some err => exact Reconcile_create_fails m ip ctx nodeClass st log err hst hrole hdrift hcreate
  | none => exact Reconcile_rotates m ip ctx nodeClass st log hst hrole hdrift hcreate

/-- C7 as stated fails: prior state `current = P1, previous = [], version = 1`,
desired role `role-B`, a `Get` that fails, a `Create` that succeeds and no
instance on `P1`. The run calls `Create` for `P2`, its collection pass deletes
the just retired `P1`, and it returns success with `previous = []`: the old
current is not in `previous`. -/
theorem Reconcile_probe_failure_counterexample :
    (Reconcile (constMethods "P2") probeFailsQuiet exampleCtx
        (ncOf "role-B" (some ⟨"P1", [], 1⟩)) []).outcome = .returned none ∧
    (Reconcile (constMethods "P2") probeFailsQuiet exampleCtx
        (ncOf "role-B" (some ⟨"P1", [], 1⟩)) []).log
      = [.Get "P1", .Create "P2" "role-B" [], .DescribeInstances (describeInput "P1"),
          .Delete "P1"] ∧
    (Reconcile (constMethods "P2") probeFailsQuiet exampleCtx
        (ncOf "role-B" (some ⟨"P1", [], 1⟩)) []).nodeClass.Status.InstanceProfiles
      = some ⟨"P2", [], 2⟩ ∧
    "P1" ∉ ([] : List String) := by
  refine ⟨by decide, by decide, by decide, by decide⟩

/-- C7 (amended): a failed drift probe is recovered locally. For every node
class with a non-empty desired role and a profile state `st` with a non-empty
`current`, if `Get` fails then (1) the whole run is the run in which `Get`
answers with a profile that has no role, so the error of `Get` is not part of
the result; (2) the call after the probe is `Create` with the name from the
naming function and the desired role; (3) when `Create` succeeds the rotation
is made and the collection pass runs on the rotated node class; (4) when the
collection pass succeeds as well, the run returns success with readiness true,
`version` one more than before, `current` and the active profile the new name,
and `previous` a sublist of the prior `previous` with the old current
appended; and when the inventory query for the old current returned a
reservation, `previous` is what the pass left of the prior `previous` followed
by the old current as its last element. -/
theorem Reconcile_probe_failure_recovered (m : NodeClassMethods) (ip : InstanceProfile)
    (ctx : Context) (nodeClass : EC2NodeClass) (st : InstanceProfilesStatus) (log : List Call)
    (err : GoError)
    (hst : nodeClass.Status.InstanceProfiles = some st)
    (hcur : st.Current ≠ "")
    (hrole : nodeClass.Spec.Role ≠ "")
    (hget : ip.instanceProfileProvider.Get log st.Current = .error err) :
    Reconcile m ip ctx nodeClass log
        = Reconcile m (withGet ip (fun _ _ => .ok ⟨[]⟩)) ctx nodeClass log ∧
    (∃ calls, (Reconcile m ip ctx nodeClass log).log
        = log ++ [.Get st.Current,
            .Create (rotationName m ip ctx nodeClass st) nodeClass.Spec.Role
              (m.InstanceProfileTags
                (withProfiles nodeClass { st with Version := st.Version + 1 })
                ctx.ClusterName ip.region)] ++ calls) ∧
    (ip.instanceProfileProvider.Create (log ++ [.Get st.Current])
        (rotationName m ip ctx nodeClass st) nodeClass.Spec.Role
        (m.InstanceProfileTags (withProfiles nodeClass { st with Version := st.Version + 1 })
          ctx.ClusterName ip.region) = none →
      Reconcile m ip ctx nodeClass log
          = collectAndFinish ip
              { nodeClass with Status := { nodeClass.Status with
                  InstanceProfile := rotationName m ip ctx nodeClass st,
                  InstanceProfiles := some
                    { Current := rotationName m ip ctx nodeClass st,
                      Previous := st.Previous ++ [st.Current],
                      Version := st.Version + 1 } } }
              (log ++ [.Get st.Current, createCall m ip ctx nodeClass st]) ∧
        ((garbageCollectProfiles ip
              { nodeClass with Status := { nodeClass.Status with
                  InstanceProfile := rotationName m ip ctx nodeClass st,
                  InstanceProfiles := some
                    { Current := rotationName m ip ctx nodeClass st,
                      Previous := st.Previous ++ [st.Current],
                      Version := st.Version + 1 } } }
              (log ++ [.Get st.Current, createCall m ip ctx nodeClass st])).outcome
            = .returned none →
          (Reconcile m ip ctx nodeClass log).outcome = .returned none ∧
          (Reconcile m ip ctx nodeClass log).nodeClass.Status.InstanceProfileReady
            = .condTrue ∧
          (Reconcile m ip ctx nodeClass log).nodeClass.Status.InstanceProfile
            = rotationName m ip ctx nodeClass st ∧
          ∃ prev, (Reconcile m ip ctx nodeClass log).nodeClass.Status.InstanceProfiles
              = some { Current := rotationName m ip ctx nodeClass st,
                       Previous := prev,
                       Version := st.Version + 1 } ∧
            prev.Sublist (st.Previous ++ [st.Current]) ∧
            (∀ out, ip.ec2api.DescribeInstances
                (log ++ [.Get st.Current, createCall m ip ctx nodeClass st])
                (describeInput st.Current) = .ok out →
              out.Reservations.length ≠ 0 →
              ∃ older, prev = older ++ [st.Current] ∧ older.Sublist st.Previous))) := by
  have hdrift : (probeRole ip st log).1 ≠ nodeClass.Spec.Role := by
    rw [probeRole_of_get_error ip st log err hcur hget]
    exact fun h => hrole h.symm
  have hdrift' : (probeRole (withGet ip (fun _ _ => .ok ⟨[]⟩)) st log).1
      ≠ nodeClass.Spec.Role := by
    rw [probeRole_of_no_role _ st log hcur rfl]
    exact fun h => hrole h.symm
  have hpc : log ++ probeCalls st = log ++ [.Get st.Current] := by
    rw [probeCalls_of_current st hcur]
  have hlog : log ++ probeCalls st ++ [createCall m ip ctx nodeClass st]
      = log ++ [.Get st.Current, createCall m ip ctx nodeClass st] := by
    rw [probeCalls_of_current st hcur]; simp
  have hrotated : rotated nodeClass st (rotationName m ip ctx nodeClass st)
      = { nodeClass with Status := { nodeClass.Status with
            InstanceProfile := rotationName m ip ctx nodeClass st,
            InstanceProfiles := some
              { Current := rotationName m ip ctx nodeClass st,
                Previous := st.Previous ++ [st.Current],
                Version := st.Version + 1 } } } := by
    simp [rotated, hcur]
  refine ⟨?_, ?_, ?_⟩
  · rw [Reconcile_drift m ip ctx nodeClass st log hst hrole hdrift,
      Reconcile_drift m (withGet ip (fun _ _ => .ok ⟨[]⟩)) ctx nodeClass st log hst hrole hdrift',
      collectAndFinish_withGet]
    rfl
  · cases hcreate : ip.instanceProfileProvider.Create (log ++ probeCalls st)
        (rotationName m ip ctx nodeClass st) nodeClass.Spec.Role
        (m.InstanceProfileTags (withProfiles nodeClass { st with Version := st.Version + 1 })
          ctx.ClusterName ip.region) with
    | some e =>
      rw [Reconcile_create_fails m ip ctx nodeClass st log e hst hrole hdrift hcreate, hlog]
      exact ⟨[], by simp [createCall]⟩
    | none =>
      rw [Reconcile_rotates m ip ctx nodeClass st log hst hrole hdrift hcreate, hlog]
      obtain ⟨_, calls, _, _, _, h4, _⟩ := collectAndFinish_frame ip
        (rotated nodeClass st (rotationName m ip ctx nodeClass st)) _
        (log ++ [.Get st.Current, createCall m ip ctx nodeClass st]) (rotated_profiles _ _ _)
      exact ⟨calls, by rw [h4]; simp [createCall]⟩
  · intro hcreate
    rw [← hpc] at hcreate
    have hrec := Reconcile_rotates m ip ctx nodeClass st log hst hrole hdrift hcreate
    rw [hlog, hrotated] at hrec
    refine ⟨hrec, ?_⟩
    intro hgc
    rw [hrec]
    obtain ⟨X, calls, h1, h2, _, _, _, h6, _, _⟩ := collectAndFinish_frame ip
      { nodeClass with Status := { nodeClass.Status with
          InstanceProfile := rotationName m ip ctx nodeClass st,
          InstanceProfiles := some
            { Current := rotationName m ip ctx nodeClass st,
              Previous := st.Previous ++ [st.Current],
              Version := st.Version + 1 } } } _
      (log ++ [.Get st.Current, createCall m ip ctx nodeClass st]) rfl
    refine ⟨?_, ?_, h2, X, h1, h6, ?_⟩
    · simp only [collectAndFinish, hgc]
    · simp only [collectAndFinish, hgc]
    · intro out hq hnz
      have hv : VisitOk ip (log ++ [.Get st.Current, createCall m ip ctx nodeClass st])
          (st.Current, true) :=
        ⟨out, hq, by simp [hnz], by simp⟩
      have hs := collectAndFinish_status ip
        { nodeClass with Status := { nodeClass.Status with
            InstanceProfile := rotationName m ip ctx nodeClass st,
            InstanceProfiles := some
              { Current := rotationName m ip ctx nodeClass st,
                Previous := st.Previous ++ [st.Current],
                Version := st.Version + 1 } } }
        { Current := rotationName m ip ctx nodeClass st,
          Previous := st.Previous ++ [st.Current],
          Version := st.Version + 1 }
        (log ++ [.Get st.Current, createCall m ip ctx nodeClass st]) rfl (by simp)
      simp only [List.length_append, List.length_singleton] at hs
      rw [gcLoop_visit ip _ st.Previous [] _ (st.Current, true) (by simp) hv] at hs
      obtain ⟨older, _, k1, _, _, k4, _, _⟩ := gcLoop_frame ip st.Previous.length
        { Current := rotationName m ip ctx nodeClass st,
          Previous := st.Previous ++ ((if (st.Current, true).2 = true then [(st.Current, true).1]
            else []) ++ []),
          Version := st.Version + 1 }
        (log ++ [.Get st.Current, createCall m ip ctx nodeClass st]
          ++ visitCalls (st.Current, true))
        st.Previous [st.Current] (by simp) (Nat.le_refl _)
      rw [k1, h1] at hs
      simp only [Option.some.injEq, InstanceProfilesStatus.mk.injEq, true_and, and_true] at hs
      exact ⟨older, hs, k4⟩

/-- C7 (amended) at prior state `current = P1, previous = [], version = 1`,
desired role `role-B`, a `Get` that fails and an instance still on `P1`: the
run calls `Create` for `P2` with `role-B`, returns success, and leaves
`current = P2, version = 2, previous = [P1]`, the old current last. -/
theorem Reconcile_probe_failure_recovered_witness :
    (Reconcile (constMethods "P2") probeFails exampleCtx
        (ncOf "role-B" (some ⟨"P1", [], 1⟩)) []).log
      = [.Get "P1", .Create "P2" "role-B" [], .DescribeInstances (describeInput "P1")] ∧
    (Reconcile (constMethods "P2") probeFails exampleCtx
        (ncOf "role-B" (some ⟨"P1", [], 1⟩)) []).nodeClass.Status.InstanceProfiles
      = some ⟨"P2", ["P1"], 2⟩ ∧
    (Reconcile (constMethods "P2") probeFails exampleCtx
        (ncOf "role-B" (some ⟨"P1", [], 1⟩)) []).outcome = .returned none ∧
    (Reconcile (constMethods "P2") probeFails exampleCtx
        (ncOf "role-B" (some ⟨"P1", [], 1⟩)) []).nodeClass.Status.InstanceProfileReady
      = .condTrue ∧
    Reconcile (constMethods "P2") probeFails exampleCtx (ncOf "role-B" (some ⟨"P1", [], 1⟩)) []
      = Reconcile (constMethods "P2") (withGet probeFails (fun _ _ => .ok ⟨[]⟩)) exampleCtx
          (ncOf "role-B" (some ⟨"P1", [], 1⟩)) [] ∧
    (∃ older, ["P1"] = older ++ ["P1"] ∧ older.Sublist ([] : List String)) := by
  have h := Reconcile_probe_failure_recovered (constMethods "P2") probeFails exampleCtx
    (ncOf "role-B" (some ⟨"P1", [], 1⟩)) ⟨"P1", [], 1⟩ [] (.errorString "throttled")
    rfl (by decide) (by decide) rfl
  obtain ⟨prev, hprev, _, hlast⟩ := ((h.2.2 rfl).2 rfl).2.2.2
  have hp : ["P1"] = prev := by
    have h2 : (some ⟨"P2", ["P1"], 2⟩ : Option InstanceProfilesStatus)
        = some ⟨"P2", prev, 2⟩ := hprev
    simpa using h2
  subst hp
  exact ⟨rfl, rfl, ((h.2.2 rfl).2 rfl).1, ((h.2.2 rfl).2 rfl).2.1, h.1,
    hlast ⟨["r-1"]⟩ rfl (by decide)⟩

/-! ## Every pass: what leaves `Previous` -/

theorem passCalls_snoc (es : List Marked) (e : Marked) :
    passCalls (es ++ [e]) = visitCalls e ++ passCalls es := by
  induction es with
  | nil => simp [passCalls]
  | cons a es ih => simp [passCalls, ih]

theorem kept_snoc (es : List Marked) (e : Marked) :
    kept (es ++ [e]) = kept es ++ (if e.2 then [e.1] else []) := by
  unfold kept
  cases h : e.2 <;> simp [List.filter_append, List.filter, h]

theorem PassOk_snoc (ip : InstanceProfile) (log : List Call) (es : List Marked) (e : Marked)
    (hv : VisitOk ip log e) (hok : PassOk ip (log ++ visitCalls e) es) :
    PassOk ip log (es ++ [e]) := by
  induction es with
  | nil => exact ⟨trivial, by simpa [passCalls] using hv⟩
  | cons a es ih =>
    obtain ⟨h1, h2⟩ := hok
    refine ⟨ih h1, ?_⟩
    show VisitOk ip (log ++ passCalls (es ++ [e])) a
    rw [passCalls_snoc, ← List.append_assoc]
    exact h2

/-- The visit of an entry either stops the pass or is answered without failure
with some verdict. -/
theorem visit_cases (ip : InstanceProfile) (log : List Call) (x : String) :
    (∃ stop err, Stopped ip log x stop err) ∨ (∃ b, VisitOk ip log (x, b)) := by
  cases hq : ip.ec2api.DescribeInstances log (describeInput x) with
  | error e => exact Or.inl ⟨_, _, Or.inl ⟨e, hq, rfl, rfl⟩⟩
  | ok out =>
    by_cases hz : out.Reservations.length = 0
    · cases hd : ip.instanceProfileProvider.Delete
          (log ++ [.DescribeInstances (describeInput x)]) x with
      | some e => exact Or.inl ⟨_, _, Or.inr ⟨out, e, hq, hz, hd, rfl, rfl⟩⟩
      | none => exact Or.inr ⟨false, out, hq, by simp [hz], fun _ => hd⟩
    · exact Or.inr ⟨true, out, hq, by simp [hz], by simp⟩

/-- An iteration whose visit stops the pass returns the error and leaves the
status as it is. -/
theorem gcLoop_stopped (ip : InstanceProfile) (st : InstanceProfilesStatus) (i : Nat)
    (x : String) (log stop : List Call) (err : GoError) (hget : st.Previous[i]? = some x)
    (hs : Stopped ip log x stop err) :
    gcLoop ip (i + 1) st log = ⟨st, log ++ stop, .returned (some err)⟩ := by
  rcases hs with ⟨e, hq, hstop, herr⟩ | ⟨out, e, hq, hz, hd, hstop, herr⟩
  · rw [gcLoop_query_fails ip st i x log e hget hq, hstop, herr]
  · rw [gcLoop_delete_fails ip st i x log out e hget hq hz hd, hstop, herr]

/-- Every run of the loop over the part `A` of `Previous`: the entries from
some index `j` on were visited without failure with verdicts `es`, and either
`j = 0` and the loop returns `nil`, or the visit of the entry at index `j - 1`
stopped the pass. The entries below `j` and the part `C` behind `A` are
untouched. -/
theorem gcLoop_char (ip : InstanceProfile) (A : List String) :
    ∀ (C : List String) (st : InstanceProfilesStatus) (log : List Call),
      st.Previous = A ++ C →
      ∃ (j : Nat) (es : List Marked) (stop : List Call) (oerr : Option GoError),
        j ≤ A.length ∧ es.map Prod.fst = A.drop j ∧ PassOk ip log es ∧
        gcLoop ip A.length st log =
          ⟨{ st with Previous := A.take j ++ (kept es ++ C) }, log ++ passCalls es ++ stop,
            .returned oerr⟩ ∧
        ((j = 0 ∧ stop = [] ∧ oerr = none) ∨
          (∃ i x err, j = i + 1 ∧ A[i]? = some x ∧
            Stopped ip (log ++ passCalls es) x stop err ∧ oerr = some err)) := by
  induction A using List.reverseRecOn with
  | nil =>
    intro C st log hprev
    refine ⟨0, [], [], none, Nat.le_refl _, rfl, trivial, ?_, Or.inl ⟨rfl, rfl, rfl⟩⟩
    simp only [List.length_nil, gcLoop, List.take_nil, kept, List.filter_nil, List.map_nil,
      List.nil_append, passCalls, List.append_nil]
    rw [status_eta st _ (by simpa using hprev)]
  | append_singleton A x ih =>
    intro C st log hprev
    have hlen : (A ++ [x]).length = A.length + 1 := by simp
    have hget : st.Previous[A.length]? = some x := by
      rw [hprev, List.append_assoc, List.getElem?_append_right (Nat.le_refl _)]; simp
    have hgetA : (A ++ [x])[A.length]? = some x := by
      rw [List.getElem?_append_right (Nat.le_refl _)]; simp
    rw [hlen]
    rcases visit_cases ip log x with ⟨stop, err, hs⟩ | ⟨b, hv⟩
    · refine ⟨A.length + 1, [], stop, some err, by simp, by simp, trivial, ?_,
        Or.inr ⟨A.length, x, err, rfl, hgetA, by simpa [passCalls] using hs, rfl⟩⟩
      rw [gcLoop_stopped ip st A.length x log stop err hget hs]
      have htake : (A ++ [x]).take (A.length + 1) = A ++ [x] := by
        rw [← hlen]; exact List.take_length _
      simp only [htake, kept, List.filter_nil, List.map_nil, List.nil_append, passCalls,
        List.append_nil]
      rw [status_eta st _ hprev]
    · have hprev' : st.Previous = A ++ (x, b).1 :: C := by rw [hprev]; simp
      rw [gcLoop_visit ip st A C log (x, b) hprev' hv]
      obtain ⟨j, es, stop, oerr, hj, hes, hok, hrun, hend⟩ :=
        ih ((if (x, b).2 = true then [(x, b).1] else []) ++ C)
          { st with Previous := A ++ ((if (x, b).2 = true then [(x, b).1] else []) ++ C) }
          (log ++ visitCalls (x, b)) rfl
      refine ⟨j, es ++ [(x, b)], stop, oerr, by omega, ?_, PassOk_snoc ip log es (x, b) hv hok,
        ?_, ?_⟩
      · rw [List.map_append, hes, List.drop_append_of_le_length hj]; rfl
      · rw [hrun, passCalls_snoc, kept_snoc, List.take_append_of_le_length hj]
        simp only [List.append_assoc]
      · rcases hend with h0 | ⟨i, y, err, hji, hy, hs, herr⟩
        · exact Or.inl h0
        · refine Or.inr ⟨i, y, err, hji, ?_, ?_, herr⟩
          · rw [List.getElem?_append_left (by omega)]; exact hy
          · rw [passCalls_snoc, ← List.append_assoc]; exact hs

theorem kept_sublist (es : List Marked) : (kept es).Sublist (es.map Prod.fst) := by
  unfold kept
  exact (List.filter_sublist es).map Prod.fst

/-- Every collection pass on a node class with profile state `st`: the entries
from some index `j` on were visited without failure with verdicts `es`; the
entries below `j` are untouched and the pass leaves the entries of verdict
`true` after them. -/
theorem garbageCollectProfiles_char (ip : InstanceProfile) (nodeClass : EC2NodeClass)
    (st : InstanceProfilesStatus) (log : List Call)
    (hst : nodeClass.Status.InstanceProfiles = some st) :
    ∃ (j : Nat) (es : List Marked) (stop : List Call) (oerr : Option GoError),
      j ≤ st.Previous.length ∧ es.map Prod.fst = st.Previous.drop j ∧ PassOk ip log es ∧
      garbageCollectProfiles ip nodeClass log =
        ⟨withProfiles nodeClass { st with Previous := st.Previous.take j ++ kept es },
          log ++ passCalls es ++ stop, .returned oerr⟩ ∧
      ((j = 0 ∧ stop = [] ∧ oerr = none) ∨
        (∃ i x err, j = i + 1 ∧ st.Previous[i]? = some x ∧
          Stopped ip (log ++ passCalls es) x stop err ∧ oerr = some err)) := by
  by_cases hne : st.Previous.length = 0
  · have hprev : st.Previous = [] := List.length_eq_zero.mp hne
    refine ⟨0, [], [], none, Nat.zero_le _, by simp [hprev], trivial, ?_,
      Or.inl ⟨rfl, rfl, rfl⟩⟩
    unfold garbageCollectProfiles
    simp only [hst, hne, if_true, passCalls, List.append_nil, kept, List.filter_nil,
      List.map_nil, List.take_zero]
    rw [status_eta st _ hprev, withProfiles_self nodeClass st hst]
  · obtain ⟨j, es, stop, oerr, hj, hes, hok, hrun, hend⟩ :=
      gcLoop_char ip st.Previous [] st log (by simp)
    refine ⟨j, es, stop, oerr, hj, hes, hok, ?_, hend⟩
    rw [garbageCollectProfiles_eq_loop ip nodeClass st log hst hne, hrun]
    simp

/-- C11: entries leave `Previous` only when proven unreferenced. For every
collection pass, successful or failing, on a node class with profile state
`st`, there are an index `j` and verdicts `es` for the entries from `j` on such
that every one of those entries was visited without failure (its inventory
query succeeded, its verdict is `false` exactly when the query returned zero
reservations, and then its delete succeeded); the pass leaves the entries below
`j` followed by the entries of verdict `true`, so every missing entry has
verdict `false`; the result is an order-preserving sublist of the original and
is not longer. -/
theorem garbageCollectProfiles_removes_only_unreferenced (ip : InstanceProfile)
    (nodeClass : EC2NodeClass) (st : InstanceProfilesStatus) (log : List Call)
    (hst : nodeClass.Status.InstanceProfiles = some st) :
    ∃ (j : Nat) (es : List Marked),
      j ≤ st.Previous.length ∧ es.map Prod.fst = st.Previous.drop j ∧ PassOk ip log es ∧
      (garbageCollectProfiles ip nodeClass log).nodeClass =
        withProfiles nodeClass { st with Previous := st.Previous.take j ++ kept es } ∧
      (st.Previous.take j ++ kept es).Sublist st.Previous ∧
      (st.Previous.take j ++ kept es).length ≤ st.Previous.length := by
  obtain ⟨j, es, stop, oerr, hj, hes, hok, hrun, _⟩ :=
    garbageCollectProfiles_char ip nodeClass st log hst
  have hsub : (st.Previous.take j ++ kept es).Sublist st.Previous := by
    have h := (List.Sublist.refl (st.Previous.take j)).append (kept_sublist es)
    rwa [hes, List.take_append_drop] at h
  exact ⟨j, es, hj, hes, hok, by rw [hrun], hsub, hsub.length_le⟩

/-- C11 at `Previous = [P0, P1, P2]` with an inventory that fails on `P1`: the
pass fails, `P2` (no instance, deleted) is the one entry that left, and
`[P0, P1]` is a sublist of the original. -/
theorem garbageCollectProfiles_removes_only_unreferenced_witness :
    (garbageCollectProfiles inventoryFailsOnP1
        (ncOf "role-B" (some ⟨"P3", ["P0", "P1", "P2"], 4⟩)) []).nodeClass
      = ncOf "role-B" (some ⟨"P3", ["P0", "P1"], 4⟩) ∧
    ∃ (j : Nat) (es : List Marked),
      j ≤ 3 ∧ es.map Prod.fst = ["P0", "P1", "P2"].drop j ∧
      PassOk inventoryFailsOnP1 [] es ∧
      (garbageCollectProfiles inventoryFailsOnP1
          (ncOf "role-B" (some ⟨"P3", ["P0", "P1", "P2"], 4⟩)) []).nodeClass =
        withProfiles (ncOf "role-B" (some ⟨"P3", ["P0", "P1", "P2"], 4⟩))
          ⟨"P3", ["P0", "P1", "P2"].take j ++ kept es, 4⟩ ∧
      (["P0", "P1", "P2"].take j ++ kept es).Sublist ["P0", "P1", "P2"] ∧
      (["P0", "P1", "P2"].take j ++ kept es).length ≤ 3 :=
  ⟨rfl, garbageCollectProfiles_removes_only_unreferenced inventoryFailsOnP1
    (ncOf "role-B" (some ⟨"P3", ["P0", "P1", "P2"], 4⟩)) ⟨"P3", ["P0", "P1", "P2"], 4⟩ [] rfl⟩

/-! ## The unmanaged path, readiness, first creation -/

/-- C12: an externally managed profile bypasses the core. For every node class
whose desired role is empty, `Reconcile` makes no collaborator call (the log is
unchanged and the result is the same for every naming function and every
collaborator), sets the active profile to the externally supplied reference
(empty when there is none), leaves the profile state, or its absence, and the
spec unchanged, sets readiness true and returns `nil`. -/
theorem Reconcile_external_profile (m : NodeClassMethods) (ip : InstanceProfile)
    (ctx : Context) (nodeClass : EC2NodeClass) (log : List Call)
    (hrole : nodeClass.Spec.Role = "") :
    (Reconcile m ip ctx nodeClass log).log = log ∧
    (Reconcile m ip ctx nodeClass log).outcome = .returned none ∧
    (Reconcile m ip ctx nodeClass log).nodeClass.Status.InstanceProfile
      = (match nodeClass.Spec.InstanceProfile with
          | some ref => ref
          | none => "") ∧
    (Reconcile m ip ctx nodeClass log).nodeClass.Status.InstanceProfiles
      = nodeClass.Status.InstanceProfiles ∧
    (Reconcile m ip ctx nodeClass log).nodeClass.Status.InstanceProfileReady = .condTrue ∧
    (Reconcile m ip ctx nodeClass log).nodeClass.Spec = nodeClass.Spec ∧
    (Reconcile m ip ctx nodeClass log).nodeClass.Name = nodeClass.Name ∧
    (∀ (m' : NodeClassMethods) (ip' : InstanceProfile) (ctx' : Context),
      Reconcile m' ip' ctx' nodeClass log = Reconcile m ip ctx nodeClass log) := by
  refine ⟨?_, ?_, ?_, ?_, ?_, ?_, ?_, ?_⟩
  · rw [Reconcile_unmanaged m ip ctx nodeClass log hrole]
  · rw [Reconcile_unmanaged m ip ctx nodeClass log hrole]
  · rw [Reconcile_unmanaged m ip ctx nodeClass log hrole]; rfl
  · rw [Reconcile_unmanaged m ip ctx nodeClass log hrole]
  · rw [Reconcile_unmanaged m ip ctx nodeClass log hrole]
  · rw [Reconcile_unmanaged m ip ctx nodeClass log hrole]
  · rw [Reconcile_unmanaged m ip ctx nodeClass log hrole]
  · intro m' ip' ctx'
    rw [Reconcile_unmanaged m ip ctx nodeClass log hrole,
      Reconcile_unmanaged m' ip' ctx' nodeClass log hrole]

/-- C12, Scenario D: no desired role and the external reference `P-ext`: the
active profile becomes `P-ext`, no call is made, readiness is true. -/
theorem Reconcile_external_profile_witness :
    ncExternal.Spec.Role = "" ∧
    (Reconcile (constMethods "P1") (quiet "role-A") exampleCtx ncExternal []).log = [] ∧
    (Reconcile (constMethods "P1") (quiet "role-A") exampleCtx ncExternal []).outcome
      = .returned none ∧
    (Reconcile (constMethods "P1") (quiet "role-A") exampleCtx ncExternal []).nodeClass
      = { Name := "default", Spec := ⟨"", some "P-ext"⟩, Status := ⟨"P-ext", none, .condTrue⟩ } :=
  have h := Reconcile_external_profile (constMethods "P1") (quiet "role-A") exampleCtx
    ncExternal [] rfl
  ⟨rfl, h.1, h.2.1, rfl⟩

/-- With a desired role, `Reconcile` starts from the initialised profile state
(lines 53-59). -/
theorem Reconcile_initStatus (m : NodeClassMethods) (ip : InstanceProfile) (ctx : Context)
    (nodeClass : EC2NodeClass) (log : List Call) (hrole : nodeClass.Spec.Role ≠ "") :
    Reconcile m ip ctx nodeClass log
      = Reconcile m ip ctx (withProfiles nodeClass (initStatus nodeClass)) log := by
  simp only [Reconcile, ne_eq, hrole, not_false_eq_true, if_true, withProfiles]
  rfl

/-- The readiness step: the condition is true after a pass that returned `nil`
and untouched after a pass that returned an error, which is then wrapped. -/
theorem collectAndFinish_ready (ip : InstanceProfile) (nodeClass : EC2NodeClass)
    (st : InstanceProfilesStatus) (log : List Call)
    (hst : nodeClass.Status.InstanceProfiles = some st) :
    ((collectAndFinish ip nodeClass log).outcome = .returned none →
      (garbageCollectProfiles ip nodeClass log).outcome = .returned none ∧
      (collectAndFinish ip nodeClass log).nodeClass.Status.InstanceProfileReady = .condTrue) ∧
    (∀ e, (collectAndFinish ip nodeClass log).outcome = .returned (some e) →
      (∃ e', (garbageCollectProfiles ip nodeClass log).outcome = .returned (some e') ∧
        e = Errorf "garbage collecting instance profiles: " e') ∧
      (collectAndFinish ip nodeClass log).nodeClass.Status.InstanceProfileReady
        = nodeClass.Status.InstanceProfileReady) := by
  obtain ⟨j, es, stop, oerr, _, _, _, hrun, _⟩ :=
    garbageCollectProfiles_char ip nodeClass st log hst
  simp only [collectAndFinish, hrun]
  cases oerr with
  | none => simp
  | some e' => simp [withProfiles]

/-- No drift, from the initialised profile state. -/
theorem Reconcile_steady_init (m : NodeClassMethods) (ip : InstanceProfile) (ctx : Context)
    (nodeClass : EC2NodeClass) (log : List Call)
    (hrole : nodeClass.Spec.Role ≠ "")
    (hmatch : (probeRole ip (initStatus nodeClass) log).1 = nodeClass.Spec.Role) :
    Reconcile m ip ctx nodeClass log =
      collectAndFinish ip (withProfiles nodeClass (initStatus nodeClass))
        (log ++ probeCalls (initStatus nodeClass)) := by
  rw [Reconcile_initStatus m ip ctx nodeClass log hrole]
  exact Reconcile_steady m ip ctx (withProfiles nodeClass (initStatus nodeClass))
    (initStatus nodeClass) log rfl hrole hmatch

/-- Drift, from the initialised profile state. -/
theorem Reconcile_drift_init (m : NodeClassMethods) (ip : InstanceProfile) (ctx : Context)
    (nodeClass : EC2NodeClass) (log : List Call)
    (hrole : nodeClass.Spec.Role ≠ "")
    (hdrift : (probeRole ip (initStatus nodeClass) log).1 ≠ nodeClass.Spec.Role) :
    Reconcile m ip ctx nodeClass log =
      match ip.instanceProfileProvider.Create (log ++ probeCalls (initStatus nodeClass))
        (rotationName m ip ctx nodeClass (initStatus nodeClass)) nodeClass.Spec.Role
        (m.InstanceProfileTags
          (withProfiles nodeClass
            { initStatus nodeClass with Version := (initStatus nodeClass).Version + 1 })
          ctx.ClusterName ip.region) with
      | some err =>
        ⟨withProfiles nodeClass
            { initStatus nodeClass with Version := (initStatus nodeClass).Version + 1 },
          log ++ probeCalls (initStatus nodeClass)
            ++ [createCall m ip ctx nodeClass (initStatus nodeClass)],
          .returned (some (Errorf "creating instance profile, " err))⟩
      | none =>
        collectAndFinish ip
          (rotated nodeClass (initStatus nodeClass)
            (rotationName m ip ctx nodeClass (initStatus nodeClass)))
          (log ++ probeCalls (initStatus nodeClass)
            ++ [createCall m ip ctx nodeClass (initStatus nodeClass)]) := by
  rw [Reconcile_initStatus m ip ctx nodeClass log hrole]
  exact Reconcile_drift m ip ctx (withProfiles nodeClass (initStatus nodeClass))
    (initStatus nodeClass) log rfl hrole hdrift

/-- C13: readiness is marked only on full success. For every node class with a
non-empty desired role and every behaviour of the collaborators, `Reconcile`
does not panic; when it returns `nil` the readiness condition is true, the
create call, if one was due, returned `nil` and the collection pass returned
`nil`; when it returns an error the readiness condition is exactly what it was
before the call, and the error is the wrapped error of `Create` or of the
collection pass. -/
theorem Reconcile_readiness (m : NodeClassMethods) (ip : InstanceProfile) (ctx : Context)
    (nodeClass : EC2NodeClass) (log : List Call)
    (hrole : nodeClass.Spec.Role ≠ "") :
    (Reconcile m ip ctx nodeClass log).outcome ≠ .panicked ∧
    ((Reconcile m ip ctx nodeClass log).outcome = .returned none →
      (Reconcile m ip ctx nodeClass log).nodeClass.Status.InstanceProfileReady = .condTrue ∧
      ((probeRole ip (initStatus nodeClass) log).1 = nodeClass.Spec.Role →
        (garbageCollectProfiles ip (withProfiles nodeClass (initStatus nodeClass))
          (log ++ probeCalls (initStatus nodeClass))).outcome = .returned none) ∧
      ((probeRole ip (initStatus nodeClass) log).1 ≠ nodeClass.Spec.Role →
        ip.instanceProfileProvider.Create (log ++ probeCalls (initStatus nodeClass))
          (rotationName m ip ctx nodeClass (initStatus nodeClass)) nodeClass.Spec.Role
          (m.InstanceProfileTags
            (withProfiles nodeClass
              { initStatus nodeClass with Version := (initStatus nodeClass).Version + 1 })
            ctx.ClusterName ip.region) = none ∧
        (garbageCollectProfiles ip
          (rotated nodeClass (initStatus nodeClass)
            (rotationName m ip ctx nodeClass (initStatus nodeClass)))
          (log ++ probeCalls (initStatus nodeClass)
            ++ [createCall m ip ctx nodeClass (initStatus nodeClass)])).outcome
          = .returned none)) ∧
    (∀ e, (Reconcile m ip ctx nodeClass log).outcome = .returned (some e) →
      (Reconcile m ip ctx nodeClass log).nodeClass.Status.InstanceProfileReady
        = nodeClass.Status.InstanceProfileReady ∧
      ((∃ e', e = Errorf "creating instance profile, " e') ∨
        (∃ e', e = Errorf "garbage collecting instance profiles: " e'))) := by
  by_cases hmatch : (probeRole ip (initStatus nodeClass) log).1 = nodeClass.Spec.Role
  · rw [Reconcile_steady_init m ip ctx nodeClass log hrole hmatch]
    obtain ⟨hok, herr⟩ := collectAndFinish_ready ip
      (withProfiles nodeClass (initStatus nodeClass)) (initStatus nodeClass)
      (log ++ probeCalls (initStatus nodeClass)) rfl
    obtain ⟨_, _, _, _, _, _, hnp, _⟩ := collectAndFinish_frame ip
      (withProfiles nodeClass (initStatus nodeClass)) (initStatus nodeClass)
      (log ++ probeCalls (initStatus nodeClass)) rfl
    refine ⟨hnp, ?_, ?_⟩
    · intro h
      exact ⟨(hok h).2, fun _ => (hok h).1, fun hd => absurd hmatch hd⟩
    · intro e h
      obtain ⟨⟨e', _, he'⟩, hr⟩ := herr e h
      exact ⟨hr, Or.inr ⟨e', he'⟩⟩
  · rw [Reconcile_drift_init m ip ctx nodeClass log hrole hmatch]
    cases hcreate : ip.instanceProfileProvider.Create (log ++ probeCalls (initStatus nodeClass))
        (rotationName m ip ctx nodeClass (initStatus nodeClass)) nodeClass.Spec.Role
        (m.InstanceProfileTags
          (withProfiles nodeClass
            { initStatus nodeClass with Version := (initStatus nodeClass).Version + 1 })
          ctx.ClusterName ip.region) with
    | some err =>
      refine ⟨by simp, by simp, ?_⟩
      intro e h
      simp only [Outcome.returned.injEq, Option.some.injEq] at h
      exact ⟨rfl, Or.inl ⟨err, h.symm⟩⟩
    | none =>
      simp only []
      obtain ⟨hok, herr⟩ := collectAndFinish_ready ip
        (rotated nodeClass (initStatus nodeClass)
          (rotationName m ip ctx nodeClass (initStatus nodeClass))) _
        (log ++ probeCalls (initStatus nodeClass)
          ++ [createCall m ip ctx nodeClass (initStatus nodeClass)]) (rotated_profiles _ _ _)
      obtain ⟨_, _, _, _, _, _, hnp, _⟩ := collectAndFinish_frame ip
        (rotated nodeClass (initStatus nodeClass)
          (rotationName m ip ctx nodeClass (initStatus nodeClass))) _
        (log ++ probeCalls (initStatus nodeClass)
          ++ [createCall m ip ctx nodeClass (initStatus nodeClass)]) (rotated_profiles _ _ _)
      refine ⟨hnp, ?_, ?_⟩
      · intro h
        exact ⟨(hok h).2, fun hm => absurd hm hmatch, fun _ => ⟨trivial, (hok h).1⟩⟩
      · intro e h
        obtain ⟨⟨e', _, he'⟩, hr⟩ := herr e h
        exact ⟨hr, Or.inr ⟨e', he'⟩⟩

/-- C13 at Scenario B: with collaborators that all succeed the run returns
`nil` and readiness is true; with a failing create the run returns the error
and readiness stays unknown, as it was. -/
theorem Reconcile_readiness_witness :
    (ncOf "role-B" (some ⟨"P1", [], 1⟩)).Spec.Role ≠ "" ∧
    (Reconcile (constMethods "P2") (busy "role-A") exampleCtx
        (ncOf "role-B" (some ⟨"P1", [], 1⟩)) []).outcome = .returned none ∧
    (Reconcile (constMethods "P2") (busy "role-A") exampleCtx
        (ncOf "role-B" (some ⟨"P1", [], 1⟩)) []).nodeClass.Status.InstanceProfileReady
      = .condTrue ∧
    (Reconcile (constMethods "P2") (createFails "role-A") exampleCtx
        (ncOf "role-B" (some ⟨"P1", [], 1⟩)) []).outcome
      = .returned (some (.wrapError "creating instance profile, quota" (.errorString "quota"))) ∧
    (Reconcile (constMethods "P2") (createFails "role-A") exampleCtx
        (ncOf "role-B" (some ⟨"P1", [], 1⟩)) []).nodeClass.Status.InstanceProfileReady
      = .condUnknown :=
  ⟨by decide, rfl,
    ((Reconcile_readiness (constMethods "P2") (busy "role-A") exampleCtx
      (ncOf "role-B" (some ⟨"P1", [], 1⟩)) [] (by decide)).2.1 rfl).1,
    rfl,
    ((Reconcile_readiness (constMethods "P2") (createFails "role-A") exampleCtx
      (ncOf "role-B" (some ⟨"P1", [], 1⟩)) [] (by decide)).2.2 _ rfl).1⟩

/-- C14: first creation. For every node class with a non-empty desired role and
no profile state yet, or a profile state with empty `current`, empty `previous`
and version 0, if `Create` succeeds then `Reconcile` makes exactly one call,
`Create` with the generated name, the desired role and the tags (no `Get`, no
inventory query, no delete), and returns `nil` with `current` and the active
profile the generated name, `version = 1`, `previous = []` and readiness true. -/
theorem Reconcile_first_creation (m : NodeClassMethods) (ip : InstanceProfile) (ctx : Context)
    (nodeClass : EC2NodeClass) (log : List Call)
    (hrole : nodeClass.Spec.Role ≠ "")
    (hfirst : nodeClass.Status.InstanceProfiles = none ∨
      nodeClass.Status.InstanceProfiles = some ⟨"", [], 0⟩)
    (hcreate : ip.instanceProfileProvider.Create log
      (m.InstanceProfileName (withProfiles nodeClass ⟨"", [], 1⟩) ctx.ClusterName ip.region)
      nodeClass.Spec.Role
      (m.InstanceProfileTags (withProfiles nodeClass ⟨"", [], 1⟩) ctx.ClusterName ip.region)
        = none) :
    Reconcile m ip ctx nodeClass log =
      ⟨{ nodeClass with Status :=
          { InstanceProfile :=
              m.InstanceProfileName (withProfiles nodeClass ⟨"", [], 1⟩) ctx.ClusterName
                ip.region,
            InstanceProfiles := some
              ⟨m.InstanceProfileName (withProfiles nodeClass ⟨"", [], 1⟩) ctx.ClusterName
                ip.region, [], 1⟩,
            InstanceProfileReady := .condTrue } },
        log ++ [.Create
          (m.InstanceProfileName (withProfiles nodeClass ⟨"", [], 1⟩) ctx.ClusterName ip.region)
          nodeClass.Spec.Role
          (m.InstanceProfileTags (withProfiles nodeClass ⟨"", [], 1⟩) ctx.ClusterName
            ip.region)],
        .returned none⟩ := by
  have hinit : initStatus nodeClass = ⟨"", [], 0⟩ := by
    rcases hfirst with h | h <;> simp [initStatus, h]
  have hprobe : probeRole ip ⟨"", [], 0⟩ log = ("", log) := by
    simp [probeRole]
  have hdrift : (probeRole ip (initStatus nodeClass) log).1 ≠ nodeClass.Spec.Role := by
    rw [hinit, hprobe]
    exact fun h => hrole h.symm
  rw [Reconcile_drift_init m ip ctx nodeClass log hrole hdrift]
  simp only [hinit, probeCalls, rotationName, createCall, ne_eq, not_true_eq_false, if_false,
    List.append_nil, zero_add, hcreate]
  simp [collectAndFinish, garbageCollectProfiles, rotated]

/-- C14, Scenario A: desired role `role-A`, no profile state: the run creates
`P1` bound to `role-A` and leaves `current = P1, version = 1, previous = []`. -/
theorem Reconcile_first_creation_witness :
    (ncOf "role-A" none).Spec.Role ≠ "" ∧
    Reconcile (constMethods "P1") (quiet "role-A") exampleCtx (ncOf "role-A" none) [] =
      ⟨{ Name := "default", Spec := ⟨"role-A", none⟩,
         Status := ⟨"P1", some ⟨"P1", [], 1⟩, .condTrue⟩ },
        [.Create "P1" "role-A" []], .returned none⟩ :=
  ⟨by decide,
    Reconcile_first_creation (constMethods "P1") (quiet "role-A") exampleCtx (ncOf "role-A" none)
      [] (by decide) (Or.inl rfl) rfl⟩

/-! ## Context of the surfaced errors -/

/-- C15 (the code at the failing input): prior state `current = P1`, drift, the
naming function returns `P2`, and `Create` fails with `quota`. The error
`Reconcile` returns wraps the cause and names the operation, but its message
`creating instance profile, quota` does not name the profile `P2` (line 78).
The two sibling paths do name the profile: with `Previous = [P0, P1, P2]`, an
inventory that fails on `P1` gives a message with `P1` in it (line 121), and a
failing delete of `P1` likewise (line 127). -/
theorem Reconcile_create_error_omits_profile_name :
    (Reconcile (constMethods "P2") (createFails "role-A") exampleCtx
        (ncOf "role-B" (some ⟨"P1", [], 1⟩)) []).log
      = [.Get "P1", .Create "P2" "role-B" []] ∧
    (Reconcile (constMethods "P2") (createFails "role-A") exampleCtx
        (ncOf "role-B" (some ⟨"P1", [], 1⟩)) []).outcome
      = .returned (some (.wrapError "creating instance profile, quota" (.errorString "quota"))) ∧
    GoError.errorString "quota" ∈ unwrapChain
      (.wrapError "creating instance profile, quota" (.errorString "quota")) ∧
    Mentions "creating instance profile, quota" "creating instance profile" ∧
    ¬ Mentions "creating instance profile, quota" "P2" ∧
    (Reconcile (constMethods "P4") inventoryFailsOnP1 exampleCtx
        (ncOf "role-B" (some ⟨"P3", ["P0", "P1", "P2"], 4⟩)) []).outcome
      = .returned (some (.wrapError
          "garbage collecting instance profiles: checking instances using profile P1: timeout"
          (.wrapError "checking instances using profile P1: timeout"
            (.errorString "timeout")))) ∧
    (Reconcile (constMethods "P4") deleteFails exampleCtx
        (ncOf "role-B" (some ⟨"P3", ["P0", "P1", "P2"], 4⟩)) []).outcome
      = .returned (some (.wrapError
          "garbage collecting instance profiles: deleting instance profile P1: denied"
          (.wrapError "deleting instance profile P1: denied" (.errorString "denied")))) := by
  refine ⟨by decide, by decide, by decide, by decide, by decide, by decide, by decide⟩

/-- The error that stops a pass at entry `x` wraps the error of the failing
call, and its message, also after `Reconcile` wrapped it, names the operation
and the profile. -/
theorem Stopped_error_context (ip : InstanceProfile) (log stop : List Call) (x : String)
    (err : GoError) (h : Stopped ip log x stop err) :
    ∃ cause op,
      (ip.ec2api.DescribeInstances log (describeInput x) = .error cause ∨
        ip.instanceProfileProvider.Delete (log ++ [.DescribeInstances (describeInput x)]) x
          = some cause) ∧
      (op = "checking instances using profile " ∨ op = "deleting instance profile ") ∧
      err.Unwrap = some cause ∧
      cause ∈ unwrapChain (Errorf "garbage collecting instance profiles: " err) ∧
      (Errorf "garbage collecting instance profiles: " err).Error
        = "garbage collecting instance profiles: " ++ (op ++ x ++ ": " ++ cause.Error) := by
  rcases h with ⟨e, hq, _, herr⟩ | ⟨out, e, _, _, hd, _, herr⟩
  · refine ⟨e, "checking instances using profile ", Or.inl hq, Or.inl rfl, ?_, ?_, ?_⟩
    · rw [herr]; rfl
    · rw [herr]; cases e <;> simp [Errorf, unwrapChain]
    · rw [herr]; rfl
  · refine ⟨e, "deleting instance profile ", Or.inr hd, Or.inr rfl, ?_, ?_, ?_⟩
    · rw [herr]; rfl
    · rw [herr]; cases e <;> simp [Errorf, unwrapChain]
    · rw [herr]; rfl

/-! ## The loop refines the abort-on-error fold -/

theorem foldStep_of_err (ip : InstanceProfile) (p : String) (K : List String)
    (log : List Call) (e : GoError) :
    foldStep ip p ⟨K, log, some e⟩ = ⟨p :: K, log, some e⟩ := rfl

theorem foldr_foldStep_of_err (ip : InstanceProfile) (A K : List String) (log : List Call)
    (e : GoError) :
    A.foldr (foldStep ip) ⟨K, log, some e⟩ = ⟨A ++ K, log, some e⟩ := by
  induction A with
  | nil => rfl
  | cons a A ih => rw [List.foldr_cons, ih, foldStep_of_err]; rfl

theorem foldStep_stopped (ip : InstanceProfile) (x : String) (C : List String)
    (log stop : List Call) (err : GoError) (hs : Stopped ip log x stop err) :
    foldStep ip x ⟨C, log, none⟩ = ⟨x :: C, log ++ stop, some err⟩ := by
  rcases hs with ⟨e, hq, hstop, herr⟩ | ⟨out, e, hq, hz, hd, hstop, herr⟩
  · simp only [foldStep, hq, hstop, herr]
  · simp only [foldStep, hq, hz, if_true, hd, hstop, herr]

theorem foldStep_visit (ip : InstanceProfile) (e : Marked) (C : List String) (log : List Call)
    (hv : VisitOk ip log e) :
    foldStep ip e.1 ⟨C, log, none⟩
      = ⟨(if e.2 then [e.1] else []) ++ C, log ++ visitCalls e, none⟩ := by
  obtain ⟨out, hq, hmark, hdel⟩ := hv
  by_cases hz : out.Reservations.length = 0
  · have he : e.2 = false := by
      cases h : e.2
      · rfl
      · exact absurd hz (hmark.mp h)
    simp [foldStep, hq, hz, hdel he, he, visitCalls]
  · have he : e.2 = true := hmark.mpr hz
    simp [foldStep, hq, hz, he, visitCalls]

/-- The loop over the part `A` of `Previous` is the fold over `A` started from
the part `C` behind it. -/
theorem gcLoop_eq_fold (ip : InstanceProfile) (A : List String) :
    ∀ (C : List String) (st : InstanceProfilesStatus) (log : List Call),
      st.Previous = A ++ C →
      gcLoop ip A.length st log =
        ⟨{ st with Previous := (A.foldr (foldStep ip) ⟨C, log, none⟩).retained },
          (A.foldr (foldStep ip) ⟨C, log, none⟩).log,
          .returned (A.foldr (foldStep ip) ⟨C, log, none⟩).err⟩ := by
  induction A using List.reverseRecOn with
  | nil =>
    intro C st log hprev
    simp only [List.length_nil, gcLoop, List.foldr_nil]
    rw [status_eta st _ (by simpa using hprev)]
  | append_singleton A x ih =>
    intro C st log hprev
    have hlen : (A ++ [x]).length = A.length + 1 := by simp
    have hget : st.Previous[A.length]? = some x := by
      rw [hprev, List.append_assoc, List.getElem?_append_right (Nat.le_refl _)]; simp
    rw [hlen, List.foldr_append, List.foldr_cons, List.foldr_nil]
    rcases visit_cases ip log x with ⟨stop, err, hs⟩ | ⟨b, hv⟩
    · rw [gcLoop_stopped ip st A.length x log stop err hget hs,
        foldStep_stopped ip x C log stop err hs, foldr_foldStep_of_err]
      simp only []
      rw [status_eta st _ (by simpa using hprev)]
    · have hprev' : st.Previous = A ++ (x, b).1 :: C := by rw [hprev]; simp
      rw [gcLoop_visit ip st A C log (x, b) hprev' hv]
      have hf := foldStep_visit ip (x, b) C log hv
      simp only [] at hf
      rw [hf]
      exact ih _ _ _ rfl

theorem PassOk_verdicts (ip : InstanceProfile)
    (inv : DescribeInstancesInput → Except GoError DescribeInstancesOutput)
    (hinv : ∀ h input, ip.ec2api.DescribeInstances h input = inv input)
    (log : List Call) (es : List Marked) (hok : PassOk ip log es) :
    ∀ e ∈ es, e.2 = referenced inv e.1 := by
  induction es with
  | nil => intro e he; cases he
  | cons a es ih =>
    obtain ⟨h1, out, hq, hmark, _⟩ := hok
    intro e he
    rcases List.mem_cons.mp he with rfl | he
    · rw [hinv] at hq
      simp only [referenced, hq]
      cases hb : e.2
      · have : ¬ out.Reservations.length ≠ 0 := fun hne => by
          rw [hmark.mpr hne] at hb; cases hb
        simp [this]
      · simp [hmark.mp hb]
    · exact ih h1 e he

theorem kept_eq_filter (f : String → Bool) (es : List Marked)
    (h : ∀ e ∈ es, e.2 = f e.1) : kept es = (es.map Prod.fst).filter f := by
  induction es with
  | nil => rfl
  | cons a es ih =>
    have ha : a.2 = f a.1 := h a (List.mem_cons_self _ _)
    have ih' := ih (fun e he => h e (List.mem_cons_of_mem _ he))
    rw [kept_cons, ih', List.map_cons, List.filter_cons, ← ha]
    cases a.2 <;> simp

/-- C16: the in-place reverse-index loop refines the abort-on-error fold. For
every node class with profile state `st` and every behaviour of the inventory
and the provider, `garbageCollectProfiles` leaves the `Previous` the
right-to-left fold retains, makes the same sequence of calls and returns the
same `nil` or error. When no call fails and the inventory answers by the
queried profile alone, the result is the plain oldest-first filter of
`Previous` by "the query returns a reservation". -/
theorem garbageCollectProfiles_refines_fold (ip : InstanceProfile)
    (nodeClass : EC2NodeClass) (st : InstanceProfilesStatus) (log : List Call)
    (hst : nodeClass.Status.InstanceProfiles = some st) :
    garbageCollectProfiles ip nodeClass log =
        ⟨withProfiles nodeClass
            { st with Previous := (abortOnErrorFold ip st.Previous log).retained },
          (abortOnErrorFold ip st.Previous log).log,
          .returned (abortOnErrorFold ip st.Previous log).err⟩ ∧
    (∀ inv : DescribeInstancesInput → Except GoError DescribeInstancesOutput,
      (∀ h input, ip.ec2api.DescribeInstances h input = inv input) →
      (abortOnErrorFold ip st.Previous log).err = none →
      (abortOnErrorFold ip st.Previous log).retained = st.Previous.filter (referenced inv)) := by
  have hloop := gcLoop_eq_fold ip st.Previous [] st log (by simp)
  refine ⟨?_, ?_⟩
  · by_cases hne : st.Previous.length = 0
    · have hprev : st.Previous = [] := List.length_eq_zero.mp hne
      have hgc : garbageCollectProfiles ip nodeClass log = ⟨nodeClass, log, .returned none⟩ := by
        simp [garbageCollectProfiles, hst, hne]
      rw [hgc]
      simp only [abortOnErrorFold, hprev, List.foldr_nil]
      rw [status_eta st [] hprev, withProfiles_self nodeClass st hst]
    · rw [garbageCollectProfiles_eq_loop ip nodeClass st log hst hne, hloop]
      rfl
  · intro inv hinv herr
    obtain ⟨j, es, stop, oerr, _, hes, hok, hrun, hend⟩ :=
      gcLoop_char ip st.Previous [] st log (by simp)
    rw [hloop] at hrun
    have hfold : abortOnErrorFold ip st.Previous log
        = st.Previous.foldr (foldStep ip) ⟨[], log, none⟩ := rfl
    rw [← hfold] at hrun
    have hretained : (abortOnErrorFold ip st.Previous log).retained
        = st.Previous.take j ++ (kept es ++ []) := by
      have := congrArg (fun r => r.status.Previous) hrun
      simpa using this
    have hoerr : oerr = none := by
      have := congrArg (fun r => r.outcome) hrun
      simp only [Outcome.returned.injEq] at this
      rw [← this, herr]
    rcases hend with ⟨hj, _, _⟩ | ⟨i, x, err, _, _, _, hsome⟩
    · subst hj
      rw [hretained, List.take_zero, List.nil_append, List.append_nil,
        kept_eq_filter (referenced inv) es (PassOk_verdicts ip inv hinv log es hok), hes,
        List.drop_zero]
    · rw [hoerr] at hsome
      cases hsome

/-- C16 at `Previous = [P0, P1, P2]` with an instance on `P2` only and no
failing call: the loop, the fold and the filter all leave `[P2]`, after the
calls for `P2`, `P1`, `P0` in this order. -/
theorem garbageCollectProfiles_refines_fold_witness :
    garbageCollectProfiles onlyP2Busy (ncOf "role-B" (some ⟨"P3", ["P0", "P1", "P2"], 4⟩)) []
      = ⟨ncOf "role-B" (some ⟨"P3", ["P2"], 4⟩),
          [.DescribeInstances (describeInput "P2"),
            .DescribeInstances (describeInput "P1"), .Delete "P1",
            .DescribeInstances (describeInput "P0"), .Delete "P0"],
          .returned none⟩ ∧
    (abortOnErrorFold onlyP2Busy ["P0", "P1", "P2"] []).retained = ["P2"] ∧
    (abortOnErrorFold onlyP2Busy ["P0", "P1", "P2"] []).retained
      = ["P0", "P1", "P2"].filter (referenced
          (fun input => if input = describeInput "P2" then .ok ⟨["r-1"]⟩ else .ok ⟨[]⟩)) :=
  have h := garbageCollectProfiles_refines_fold onlyP2Busy
    (ncOf "role-B" (some ⟨"P3", ["P0", "P1", "P2"], 4⟩)) ⟨"P3", ["P0", "P1", "P2"], 4⟩ [] rfl
  ⟨by rw [h.1]; rfl, rfl, h.2 _ (fun _ _ => rfl) rfl⟩

/-! ## Index safety of the reverse removal -/

theorem queriedInputs_append (a b : List Call) :
    queriedInputs (a ++ b) = queriedInputs a ++ queriedInputs b := by
  induction a with
  | nil => rfl
  | cons c cs ih => cases c <;> simp [queriedInputs, ih]

theorem queriedInputs_passCalls (es : List Marked) :
    queriedInputs (passCalls es) = ((es.map Prod.fst).reverse).map describeInput := by
  induction es with
  | nil => rfl
  | cons e es ih =>
    obtain ⟨p, b⟩ := e
    cases b <;> simp [passCalls, queriedInputs_append, ih, visitCalls, queriedInputs]

theorem removed_sublist (es : List Marked) : (removed es).Sublist (es.map Prod.fst) := by
  unfold removed
  exact (List.filter_sublist es).map Prod.fst

theorem Stopped_calls (ip : InstanceProfile) (log stop : List Call) (x : String)
    (err : GoError) (h : Stopped ip log x stop err) :
    queriedInputs stop = [describeInput x] ∧ (deletedNames stop).Sublist [x] := by
  rcases h with ⟨_, _, hstop, _⟩ | ⟨_, _, _, _, _, hstop, _⟩
  · rw [hstop]; simp [queriedInputs, deletedNames]
  · rw [hstop]; simp [queriedInputs, deletedNames]

/-- The calls of every run of the loop: the inventory queries are those for the
entries from some index `j` up to the last, newest first, one each; the deletes
are among those entries, newest first, at most one each. -/
theorem gcLoop_trace (ip : InstanceProfile) (st : InstanceProfilesStatus) (log : List Call) :
    ∃ (j : Nat) (calls : List Call),
      j ≤ st.Previous.length ∧
      (gcLoop ip st.Previous.length st log).log = log ++ calls ∧
      queriedInputs calls = ((st.Previous.drop j).reverse).map describeInput ∧
      (deletedNames calls).Sublist (st.Previous.drop j).reverse := by
  obtain ⟨j, es, stop, oerr, hj, hes, _, hrun, hend⟩ :=
    gcLoop_char ip st.Previous [] st log (by simp)
  rcases hend with ⟨_, hstop, _⟩ | ⟨i, x, err, hji, hx, hs, _⟩
  · refine ⟨j, passCalls es, hj, by rw [hrun, hstop]; simp, ?_, ?_⟩
    · rw [queriedInputs_passCalls, hes]
    · rw [deletedNames_passCalls, ← hes]
      exact (removed_sublist es).reverse
  · obtain ⟨hi, hxi⟩ := List.getElem?_eq_some.mp hx
    have hdrop : st.Previous.drop i = x :: es.map Prod.fst := by
      rw [hes, hji, ← hxi]
      exact List.drop_eq_getElem_cons hi
    obtain ⟨hq, hd⟩ := Stopped_calls ip _ stop x err hs
    refine ⟨i, passCalls es ++ stop, by omega, by rw [hrun]; simp, ?_, ?_⟩
    · rw [queriedInputs_append, queriedInputs_passCalls, hq, hdrop]
      simp
    · rw [deletedNames_append, deletedNames_passCalls, hdrop, List.reverse_cons]
      exact (removed_sublist es).reverse.append hd

/-- C17: the reverse removal is index-safe. For every profile state `st` with
`n` entries in `Previous` and every behaviour of the collaborators: (a) the loop
started at index `n - 1` never reads out of range and returns; (b) in every
iteration, that is whenever the loop reaches an index `i` after the newer
entries were visited with verdicts `es`, the shortened `Previous` is the first
`i + 1` original entries followed by the kept newer ones, `i` is within its
bounds and the element read at `i` is the original element at `i`; (c) the
inventory queries of the pass are those for the original entries from some
index `j` up to `n - 1`, newest first and one each, the deletes are among the
same entries, newest first and at most one each, and there are at most `n`
iterations. -/
theorem gcLoop_index_safe (ip : InstanceProfile) (st : InstanceProfilesStatus)
    (log : List Call) :
    (gcLoop ip st.Previous.length st log).outcome ≠ .panicked ∧
    (∀ (i : Nat) (hi : i < st.Previous.length) (es : List Marked),
      es.map Prod.fst = st.Previous.drop (i + 1) → PassOk ip log es →
      gcLoop ip st.Previous.length st log =
          gcLoop ip (i + 1) { st with Previous := st.Previous.take (i + 1) ++ kept es }
            (log ++ passCalls es) ∧
        i < (st.Previous.take (i + 1) ++ kept es).length ∧
        (st.Previous.take (i + 1) ++ kept es)[i]? = some st.Previous[i]) ∧
    (∃ (j : Nat) (calls : List Call),
      j ≤ st.Previous.length ∧
      (gcLoop ip st.Previous.length st log).log = log ++ calls ∧
      queriedInputs calls = ((st.Previous.drop j).reverse).map describeInput ∧
      (deletedNames calls).Sublist (st.Previous.drop j).reverse ∧
      (queriedInputs calls).length ≤ st.Previous.length) := by
  refine ⟨?_, ?_, ?_⟩
  · obtain ⟨_, _, _, _, hnp, _⟩ :=
      gcLoop_frame ip st.Previous.length st log st.Previous [] (by simp) (Nat.le_refl _)
    exact hnp
  · intro i hi es hes hok
    refine ⟨gcLoop_stops_at ip st log i hi es hes hok, ?_,
      getElem?_take_succ_append st.Previous (kept es) i hi⟩
    rw [List.length_append, List.length_take]
    omega
  · obtain ⟨j, calls, hj, hlog, hq, hd⟩ := gcLoop_trace ip st log
    refine ⟨j, calls, hj, hlog, hq, hd, ?_⟩
    rw [hq, List.length_map, List.length_reverse, List.length_drop]
    omega

/-- C17 at `Previous = [P0, P1, P2]` with an inventory that fails on `P1`: after
`P2` was removed the loop is at index 1 of `[P0, P1]`, reads `P1` there, and the
pass makes the queries for `P2` and `P1` and the delete of `P2`. -/
theorem gcLoop_index_safe_witness :
    PassOk inventoryFailsOnP1 [] [("P2", false)] ∧
    gcLoop inventoryFailsOnP1 3 ⟨"P3", ["P0", "P1", "P2"], 4⟩ [] =
      gcLoop inventoryFailsOnP1 2 ⟨"P3", ["P0", "P1"], 4⟩
        [.DescribeInstances (describeInput "P2"), .Delete "P2"] ∧
    (1 : Nat) < ["P0", "P1"].length ∧
    ["P0", "P1"][1]? = some "P1" ∧
    (gcLoop inventoryFailsOnP1 3 ⟨"P3", ["P0", "P1", "P2"], 4⟩ []).log =
      [.DescribeInstances (describeInput "P2"), .Delete "P2",
        .DescribeInstances (describeInput "P1")] ∧
    (gcLoop inventoryFailsOnP1 3 ⟨"P3", ["P0", "P1", "P2"], 4⟩ []).outcome ≠ .panicked :=
  have hok : PassOk inventoryFailsOnP1 [] [("P2", false)] :=
    ⟨trivial, ⟨[]⟩, rfl, by decide, fun _ => rfl⟩
  have h := gcLoop_index_safe inventoryFailsOnP1 ⟨"P3", ["P0", "P1", "P2"], 4⟩ []
  ⟨hok, (h.2.1 1 (by decide) [("P2", false)] rfl hok).1,
    (h.2.1 1 (by decide) [("P2", false)] rfl hok).2.1,
    (h.2.1 1 (by decide) [("P2", false)] rfl hok).2.2, rfl, h.1⟩

/-! ## A failing collection pass after a rotation -/

/-- C18: a garbage-collection failure does not undo the rotation of the same
run. For every prior profile state `st`, non-empty desired role and behaviour
of the collaborators with drift and a successful `Create`, if the collection
pass on the rotated node class returns the error `e`, then `Reconcile` returns
`e` wrapped, leaves the readiness condition as it was, and the state it leaves
holds the rotation: `version` is the old version plus one, `current` and the
active profile are the new name, and `previous` is the prior `previous` with
the old non-empty current appended, up to the index `j` where an inventory
query or a delete failed, followed by the newer entries that were visited
without failure and are still referenced. -/
theorem Reconcile_gc_failure_keeps_rotation (m : NodeClassMethods) (ip : InstanceProfile)
    (ctx : Context) (nodeClass : EC2NodeClass) (st : InstanceProfilesStatus) (log : List Call)
    (e : GoError)
    (hst : nodeClass.Status.InstanceProfiles = some st)
    (hrole : nodeClass.Spec.Role ≠ "")
    (hdrift : (probeRole ip st log).1 ≠ nodeClass.Spec.Role)
    (hcreate : ip.instanceProfileProvider.Create (log ++ probeCalls st)
      (rotationName m ip ctx nodeClass st) nodeClass.Spec.Role
      (m.InstanceProfileTags (withProfiles nodeClass { st with Version := st.Version + 1 })
        ctx.ClusterName ip.region) = none)
    (hgc : (garbageCollectProfiles ip
        (rotated nodeClass st (rotationName m ip ctx nodeClass st))
        (log ++ probeCalls st ++ [createCall m ip ctx nodeClass st])).outcome
      = .returned (some e)) :
    (Reconcile m ip ctx nodeClass log).outcome
      = .returned (some (Errorf "garbage collecting instance profiles: " e)) ∧
    (Reconcile m ip ctx nodeClass log).nodeClass.Status.InstanceProfileReady
      = nodeClass.Status.InstanceProfileReady ∧
    (Reconcile m ip ctx nodeClass log).nodeClass.Status.InstanceProfile
      = rotationName m ip ctx nodeClass st ∧
    ∃ (j : Nat) (es : List Marked) (x : String) (stop : List Call),
      es.map Prod.fst
        = (if st.Current ≠ "" then st.Previous ++ [st.Current] else st.Previous).drop (j + 1) ∧
      PassOk ip (log ++ probeCalls st ++ [createCall m ip ctx nodeClass st]) es ∧
      (if st.Current ≠ "" then st.Previous ++ [st.Current] else st.Previous)[j]? = some x ∧
      Stopped ip (log ++ probeCalls st ++ [createCall m ip ctx nodeClass st] ++ passCalls es)
        x stop e ∧
      (Reconcile m ip ctx nodeClass log).nodeClass.Status.InstanceProfiles
        = some
          { Current := rotationName m ip ctx nodeClass st,
            Previous :=
              (if st.Current ≠ "" then st.Previous ++ [st.Current] else st.Previous).take (j + 1)
                ++ kept es,
            Version := st.Version + 1 } := by
  rw [Reconcile_rotates m ip ctx nodeClass st log hst hrole hdrift hcreate]
  obtain ⟨j, es, stop, oerr, _, hes, hok, hrun, hend⟩ :=
    garbageCollectProfiles_char ip (rotated nodeClass st (rotationName m ip ctx nodeClass st)) _
      (log ++ probeCalls st ++ [createCall m ip ctx nodeClass st]) (rotated_profiles _ _ _)
  rw [hrun] at hgc
  simp only [Outcome.returned.injEq] at hgc
  subst hgc
  rcases hend with ⟨_, _, hnone⟩ | ⟨i, x, err, hji, hx, hs, hsome⟩
  · cases hnone
  · simp only [Option.some.injEq] at hsome
    subst hsome
    subst hji
    refine ⟨?_, ?_, ?_, i, es, x, stop, hes, hok, hx, hs, ?_⟩ <;>
      simp only [collectAndFinish, hrun] <;> rfl

/-- C18 at prior state `current = P2, previous = [P0, P1], version = 2`, desired
role `role-C`, new name `P3`, and an inventory that fails on `P1`: the run
returns the wrapped error with readiness still unknown, and leaves
`current = P3, version = 3, previous = [P0, P1]` (`P2` was retired and
deleted before the failure). -/
theorem Reconcile_gc_failure_keeps_rotation_witness :
    (Reconcile (constMethods "P3") inventoryFailsOnP1 exampleCtx
        (ncOf "role-C" (some ⟨"P2", ["P0", "P1"], 2⟩)) []).nodeClass
      = { Name := "default", Spec := ⟨"role-C", none⟩,
          Status := ⟨"P3", some ⟨"P3", ["P0", "P1"], 3⟩, .condUnknown⟩ } ∧
    (Reconcile (constMethods "P3") inventoryFailsOnP1 exampleCtx
        (ncOf "role-C" (some ⟨"P2", ["P0", "P1"], 2⟩)) []).outcome
      = .returned (some (Errorf "garbage collecting instance profiles: "
          (.wrapError "checking instances using profile P1: timeout"
            (.errorString "timeout")))) ∧
    (Reconcile (constMethods "P3") inventoryFailsOnP1 exampleCtx
        (ncOf "role-C" (some ⟨"P2", ["P0", "P1"], 2⟩)) []).nodeClass.Status.InstanceProfileReady
      = .condUnknown :=
  have h := Reconcile_gc_failure_keeps_rotation (constMethods "P3") inventoryFailsOnP1 exampleCtx
    (ncOf "role-C" (some ⟨"P2", ["P0", "P1"], 2⟩)) ⟨"P2", ["P0", "P1"], 2⟩ []
    (.wrapError "checking instances using profile P1: timeout" (.errorString "timeout"))
    rfl (by decide) (by decide) rfl rfl
  ⟨rfl, h.1, h.2.1⟩

end nodeclass
